import Mathlib

/-! Drive controller of autorustler (`drive/controller.cc`).

A shallow embedding of the per-tick estimation cycle (`DriveController::UpdateState`)
and of the control law (`DriveController::GetControl`, `MotorControl`, `clip`).

Modelling conventions.

* A C `float`/`double` is a `CFloat α`: either a finite number, an element of a linearly
  ordered field `α` (take `ℚ` to compute, `ℝ` to talk about `π`), or one of the IEEE-754
  special values NaN, +∞, -∞.  Arithmetic on finite numbers is exact: rounding, overflow
  and the sign of zero are not modelled (a zero divisor behaves as `+0`).
* `GetControl.roundedVars` is the control law with the rounding of every operation put
  back: each `float` operation is rounded by a function `r32`, each `double` operation by
  `r64`, one operation at a time (no fused multiply-add, no excess precision).  With
  `roundF32` and `roundF64`, the IEEE-754 roundings to nearest with ties to even and
  overflow to an infinity, it computes what the binary32 program computes; statements
  about the numbers the control law produces are made there.
* `uint16_t` and `uint8_t` values are natural numbers; the one narrowing conversion of the
  source is an explicit `% 65536`.
* The estimator (`ekf`), the centerline extractor (`TophatFilter`) and the `<math.h>`
  functions are not part of this translation unit; they are parameters.  Every call the
  controller makes to the estimator or to the extractor is recorded, in order, in a log.
* Console output (`printf`, `std::cout`, `fprintf`) is not modelled.
-/

namespace Autorustler

/-- Values of a C floating-point variable: NaN, the two infinities, or a finite number. -/
inductive CFloat (α : Type) where
  | nan : CFloat α
  | pinf : CFloat α
  | ninf : CFloat α
  | fin : α → CFloat α
deriving DecidableEq, Repr

namespace CFloat

variable {α : Type} [LinearOrderedField α]

/-- The C macro `isnan`. -/
def isnan : CFloat α → Bool
  | nan => true
  | _ => false

/-- The C macro `isinf`. -/
def isinf : CFloat α → Bool
  | pinf => true
  | ninf => true
  | _ => false

/-- Unary minus. -/
def neg : CFloat α → CFloat α
  | nan => nan
  | pinf => ninf
  | ninf => pinf
  | fin a => fin (-a)

/-- IEEE addition: `∞ + (-∞)` is NaN. -/
def add : CFloat α → CFloat α → CFloat α
  | nan, _ => nan
  | pinf, nan => nan
  | pinf, ninf => nan
  | pinf, pinf => pinf
  | pinf, fin _ => pinf
  | ninf, nan => nan
  | ninf, pinf => nan
  | ninf, ninf => ninf
  | ninf, fin _ => ninf
  | fin _, nan => nan
  | fin _, pinf => pinf
  | fin _, ninf => ninf
  | fin a, fin b => fin (a + b)

/-- The infinity whose sign is that of the finite number `b` times `s`; NaN for `b = 0`. -/
def infTimes (s : Bool) (b : α) : CFloat α :=
  if 0 < b then (if s then pinf else ninf)
  else if b < 0 then (if s then ninf else pinf)
  else nan

/-- IEEE multiplication: `∞ * 0` is NaN. -/
def mul : CFloat α → CFloat α → CFloat α
  | nan, _ => nan
  | pinf, nan => nan
  | pinf, pinf => pinf
  | pinf, ninf => ninf
  | pinf, fin b => infTimes true b
  | ninf, nan => nan
  | ninf, pinf => ninf
  | ninf, ninf => pinf
  | ninf, fin b => infTimes false b
  | fin _, nan => nan
  | fin a, pinf => infTimes true a
  | fin a, ninf => infTimes false a
  | fin a, fin b => fin (a * b)

/-- IEEE division: `∞ / ∞` and `0 / 0` are NaN, a nonzero finite number over zero is an
infinity (the zero divisor counts as `+0`), a finite number over an infinity is zero. -/
def div : CFloat α → CFloat α → CFloat α
  | nan, _ => nan
  | pinf, nan => nan
  | pinf, pinf => nan
  | pinf, ninf => nan
  | pinf, fin b => if b < 0 then ninf else pinf
  | ninf, nan => nan
  | ninf, pinf => nan
  | ninf, ninf => nan
  | ninf, fin b => if b < 0 then pinf else ninf
  | fin _, nan => nan
  | fin _, pinf => fin 0
  | fin _, ninf => fin 0
  | fin a, fin b => if b = 0 then infTimes true a else fin (a / b)

instance : Neg (CFloat α) := ⟨neg⟩
instance : Add (CFloat α) := ⟨add⟩
instance : Sub (CFloat α) := ⟨fun x y => add x (neg y)⟩
instance : Mul (CFloat α) := ⟨mul⟩
instance : Div (CFloat α) := ⟨div⟩

/-- The C comparison `x < y`: false as soon as an operand is NaN. -/
def lt : CFloat α → CFloat α → Bool
  | nan, _ => false
  | pinf, _ => false
  | ninf, nan => false
  | ninf, ninf => false
  | ninf, pinf => true
  | ninf, fin _ => true
  | fin _, nan => false
  | fin _, ninf => false
  | fin _, pinf => true
  | fin a, fin b => decide (a < b)

/-- The C comparison `x == y`: false as soon as an operand is NaN. -/
def eq : CFloat α → CFloat α → Bool
  | pinf, pinf => true
  | ninf, ninf => true
  | fin a, fin b => decide (a = b)
  | _, _ => false

/-- The C comparison `x <= y`: false as soon as an operand is NaN. -/
def le : CFloat α → CFloat α → Bool
  | nan, _ => false
  | pinf, nan => false
  | pinf, pinf => true
  | pinf, ninf => false
  | pinf, fin _ => false
  | ninf, nan => false
  | ninf, pinf => true
  | ninf, ninf => true
  | ninf, fin _ => true
  | fin _, nan => false
  | fin _, pinf => true
  | fin _, ninf => false
  | fin a, fin b => decide (a ≤ b)

instance : LT (CFloat α) := ⟨fun x y => lt x y = true⟩

instance (x y : CFloat α) : Decidable (x < y) :=
  inferInstanceAs (Decidable (lt x y = true))

/-- The C library function `fabs`. -/
def fabs : CFloat α → CFloat α
  | nan => nan
  | pinf => pinf
  | ninf => pinf
  | fin a => fin |a|

/-- The C library function `fmin`: a NaN operand is ignored. -/
def fmin : CFloat α → CFloat α → CFloat α
  | nan, y => y
  | x, nan => x
  | x, y => if x < y then x else y

end CFloat

/-- The `<math.h>` functions the controller calls, on finite arguments. -/
structure Libm (α : Type) where
  /-- The function `exp`. -/
  exp : α → α
  /-- The function `cos`. -/
  cos : α → α
  /-- The function `sin`. -/
  sin : α → α
  /-- The function `sqrtf`, on non-negative arguments. -/
  sqrt : α → α

namespace CFloat

variable {α : Type} [LinearOrderedField α]

/-- The C library function `exp`: `exp(-∞) = 0`, `exp(+∞) = +∞`. -/
def exp (L : Libm α) : CFloat α → CFloat α
  | nan => nan
  | pinf => pinf
  | ninf => fin 0
  | fin a => fin (L.exp a)

/-- The C library function `cos`: NaN at the infinities. -/
def cos (L : Libm α) : CFloat α → CFloat α
  | fin a => fin (L.cos a)
  | _ => nan

/-- The C library function `sin`: NaN at the infinities. -/
def sin (L : Libm α) : CFloat α → CFloat α
  | fin a => fin (L.sin a)
  | _ => nan

/-- The C library function `sqrtf`: NaN on negative arguments. -/
def sqrtf (L : Libm α) : CFloat α → CFloat α
  | nan => nan
  | pinf => pinf
  | ninf => nan
  | fin a => if a < 0 then nan else fin (L.sqrt a)

end CFloat

open CFloat

section Constants

variable {α : Type} [LinearOrderedField α]

/-- Source: `static const float MAX_THROTTLE = 0.8;` -/
def MAX_THROTTLE : CFloat α := fin 0.8
/-- Source: `static const float SPEED_LIMIT = 5.0;` -/
def SPEED_LIMIT : CFloat α := fin 5
/-- Source: `static const float ACCEL_LIMIT = 4.0;`, the maximum dv/dt. -/
def ACCEL_LIMIT : CFloat α := fin 4
/-- Source: `static const float BRAKE_LIMIT = -100.0;`, the minimum dv/dt. -/
def BRAKE_LIMIT : CFloat α := fin (-100)
/-- Source: `static const float TRACTION_LIMIT = 4.0;`, the maximum v*w product. -/
def TRACTION_LIMIT : CFloat α := fin 4
/-- Source: `static const float kpy = 1.0;` -/
def kpy : CFloat α := fin 1
/-- Source: `static const float kvy = 2.0;` -/
def kvy : CFloat α := fin 2
/-- Source: `static const float LANE_OFFSET = 0.0;` -/
def LANE_OFFSET : CFloat α := fin 0
/-- Source: `static const float LANEOFFSET_PER_K = 0.0;` -/
def LANEOFFSET_PER_K : CFloat α := fin 0

end Constants

section Control

variable {α : Type} [LinearOrderedField α]

/-- Source: `static inline float clip(float x, float min, float max)`. -/
def clip (x min max : CFloat α) : CFloat α :=
  if x < min then min
  else if max < x then max
  else x

/-- Source: `static float MotorControl(float accel, float k1, float k2, float k3, float k4,
float v)`. -/
def MotorControl (accel k1 k2 k3 k4 v : CFloat α) : CFloat α :=
  let a_thresh := -k3 * v - k4
  -- voltage (1 or 0)
  let V : CFloat α := if a_thresh < accel then fin 1 else fin 0
  -- duty cycle
  let DC := clip ((accel + k3 * v + k4) / (V * k1 - k2 * v)) (fin 0) (fin 1)
  if CFloat.eq V (fin 1) then DC else -DC

/-- The values `DriveController::GetControl` computes on the way: its two outputs and the
local variables the outputs are derived from. -/
structure GetControlVars (α : Type) where
  /-- Local `vmax` as first assigned, before the saturation step. -/
  vmax_init : CFloat α
  /-- Local `k_target`. -/
  k_target : CFloat α
  /-- Output `*steering_out`. -/
  steering_out : CFloat α
  /-- Local `vmax` after the saturation step. -/
  vmax : CFloat α
  /-- Local `v_target`. -/
  v_target : CFloat α
  /-- Local `a_target` as first assigned, before the damping of accelerations. -/
  a_target_init : CFloat α
  /-- Local `a_target` as passed to `MotorControl`. -/
  a_target : CFloat α
  /-- Output `*throttle_out`. -/
  throttle_out : CFloat α

/-- Source: the body of `bool DriveController::GetControl(float *throttle_out,
float *steering_out, float dt)`, on the state vector `x_ = ekf.GetState()`. -/
def GetControl.vars (L : Libm α) (x_ : Fin 12 → CFloat α) (dt : CFloat α) :
    GetControlVars α :=
  let v := x_ 0
  let y_e := x_ 2
  let psi_e := x_ 3
  let kappa := x_ 4
  let ml_1 := x_ 5
  let ml_2 := x_ 6
  let ml_3 := x_ 7
  let ml_4 := x_ 8
  let srv_a := x_ 9
  let srv_b := x_ 10
  let k1 := CFloat.exp L ml_1
  let k2 := CFloat.exp L ml_2
  let k3 := CFloat.exp L ml_3
  let k4 := CFloat.exp L ml_4
  let vmax_init := fmin SPEED_LIMIT ((k1 - k4) / (k2 + k3))
  let lane_offset := clip (LANE_OFFSET + kappa * LANEOFFSET_PER_K) (fin (-1)) (fin 1)
  let psi_offset : CFloat α := fin 0
  let cpsi := CFloat.cos L (psi_e - psi_offset)
  let spsi := CFloat.sin L (psi_e - psi_offset)
  let dx := cpsi / (fin 1 - kappa * y_e)
  let k_target :=
    dx * (-(y_e - lane_offset) * dx * kpy * cpsi - spsi * (-kappa * spsi - kvy * cpsi) + kappa)
  let steering_out := clip ((k_target - srv_b) / srv_a) (fin (-1)) (fin 1)
  let vmax :=
    if CFloat.eq steering_out (fin (-1)) || CFloat.eq steering_out (fin 1) then
      -- steering is clamped, so we may need to further limit speed
      let w_target := v * k_target
      let k_limit := srv_a * steering_out + srv_b
      fmin vmax_init (w_target / k_limit)
    else vmax_init
  let v_target := fmin vmax (sqrtf L (TRACTION_LIMIT / fabs k_target))
  let a_target_init := clip (v_target - v) BRAKE_LIMIT ACCEL_LIMIT / dt
  let a_target :=
    if fin 0 < a_target_init then a_target_init / fin 4 else a_target_init
  let throttle_out := clip (MotorControl a_target k1 k2 k3 k4 v) (fin (-1)) MAX_THROTTLE
  { vmax_init := vmax_init, k_target := k_target, steering_out := steering_out, vmax := vmax,
    v_target := v_target, a_target_init := a_target_init, a_target := a_target,
    throttle_out := throttle_out }

/-- Source: `bool DriveController::GetControl(float *throttle_out, float *steering_out,
float dt)`: the returned flag (always `true`) and the two values written through the
pointers, `(*throttle_out, *steering_out)`. -/
def GetControl (L : Libm α) (x_ : Fin 12 → CFloat α) (dt : CFloat α) :
    Bool × CFloat α × CFloat α :=
  let r := GetControl.vars L x_ dt
  (true, r.throttle_out, r.steering_out)

end Control

/-! ## Binary floating-point rounding

The definitions above compute with exact arithmetic.  The ones below put the rounding of
the machine arithmetic back in: every operation whose result is assigned to or used as a
`float` is followed by a rounding `r32` to the `float` format, every operation carried out
in `double` by a rounding `r64`.  `roundF32` and `roundF64` are the roundings of IEEE-754
binary32 and binary64 (round to nearest, ties to even). -/

section Rounding

/-- Floor of the binary logarithm of `n`, when `1 ≤ n` and `n < 2 ^ (fuel + 1)`
(`ilog2 n n` for every `n ≥ 1`); `0` for `n < 2`. -/
def ilog2 : Nat → Nat → Nat
  | 0, _ => 0
  | fuel + 1, n => if n < 2 then 0 else ilog2 fuel (n / 2) + 1

/-- The binary exponent of the positive rational `n / d`: the integer `e` with
`2^e ≤ n / d < 2^(e + 1)`. -/
def binExp (n d : Nat) : Int :=
  let e0 : Int := (ilog2 n n : Int) - (ilog2 d d : Int)
  if d * 2 ^ e0.toNat ≤ n * 2 ^ (-e0).toNat then e0 else e0 - 1

/-- The integer nearest to `N / D`, the even one of two. -/
def roundQuot (N D : Nat) : Nat :=
  let f : Nat := N / D
  let r : Nat := N % D
  if 2 * r < D then f else if D < 2 * r then f + 1 else if f % 2 = 0 then f else f + 1

/-- Rounding of the positive rational `n / d` to the binary format with `p` significand
bits and exponents from `emin` to `emax`, round to nearest, ties to even: `some (k, a, b)`
stands for the value `k · 2^a / 2^b`, `none` for an overflow.  With `e` the exponent of
`n / d`, the spacing of the format there is `2^t`, `t = max (e - (p - 1)) (emin - (p - 1))`,
and `k` is the integer nearest to `(n / d) / 2^t`, the even one of two; the result
overflows when `k · 2^t ≥ 2^(emax + 1)`. -/
def roundCore (p : Nat) (emin emax : Int) (n d : Nat) : Option (Nat × Nat × Nat) :=
  let t : Int := max (binExp n d - ((p : Int) - 1)) (emin - ((p : Int) - 1))
  let k : Nat := roundQuot (n * 2 ^ (-t).toNat) (d * 2 ^ t.toNat)
  if emax + 1 ≤ (ilog2 k k : Int) + t then none else some (k, t.toNat, (-t).toNat)

/-- Rounding of a rational number to the binary floating-point format with `p`
significand bits and exponents from `emin` to `emax` (IEEE-754 round to nearest, ties to
even, with subnormal numbers); a result beyond the largest finite number is an infinity. -/
def roundBinary (p : Nat) (emin emax : Int) (q : ℚ) : CFloat ℚ :=
  if q = 0 then fin 0
  else
    match roundCore p emin emax q.num.natAbs q.den with
    | none => if 0 < q then pinf else ninf
    | some (k, a, b) =>
      if 0 < q then fin (((k * 2 ^ a : Nat) : ℚ) / ((2 ^ b : Nat) : ℚ))
      else fin (-(((k * 2 ^ a : Nat) : ℚ) / ((2 ^ b : Nat) : ℚ)))

/-- Rounding to IEEE-754 binary32, the format of a C `float`. -/
def roundF32 : ℚ → CFloat ℚ := roundBinary 24 (-126) 127

/-- Rounding to IEEE-754 binary64, the format of a C `double`. -/
def roundF64 : ℚ → CFloat ℚ := roundBinary 53 (-1022) 1023

variable {α : Type} [LinearOrderedField α]

/-- The result of a floating-point operation from its exact result: a finite exact result
is rounded by `r`, an infinity or a NaN is kept. -/
def CFloat.rounded (r : α → CFloat α) : CFloat α → CFloat α
  | fin c => r c
  | nan => nan
  | pinf => pinf
  | ninf => ninf

/-- The values `DriveController::GetControl` computes up to the assignment of `v_target`,
with the rounding of each operation. -/
structure GetControlRoundedVars (α : Type) where
  /-- Local `vmax` as first assigned, before the saturation step. -/
  vmax_init : CFloat α
  /-- Local `k_target`. -/
  k_target : CFloat α
  /-- The unclamped steering, the first argument `(k_target - srv_b) / srv_a` of `clip`. -/
  steering_raw : CFloat α
  /-- Output `*steering_out`. -/
  steering_out : CFloat α
  /-- Local `w_target` of the saturation step. -/
  w_target : CFloat α
  /-- Local `k_limit` of the saturation step. -/
  k_limit : CFloat α
  /-- The saturation bound `w_target / k_limit`. -/
  sat_bound : CFloat α
  /-- Local `vmax` after the saturation step. -/
  vmax : CFloat α
  /-- The traction speed `sqrtf(TRACTION_LIMIT / fabs(k_target))`. -/
  traction_speed : CFloat α
  /-- Local `v_target`. -/
  v_target : CFloat α

/-- Source: the body of `bool DriveController::GetControl(float *throttle_out,
float *steering_out, float dt)` up to the assignment of `v_target`, with the rounding
`r32` after every `float` operation and `r64` after the two `double` operations of the
`dx` line (whose literal `1.0` is a `double`).  The locals of the saturation step are
computed whether or not the step runs; `vmax` takes the bound only when it runs. -/
def GetControl.roundedVars (r32 r64 : α → CFloat α) (L : Libm α)
    (x_ : Fin 12 → CFloat α) : GetControlRoundedVars α :=
  let F := CFloat.rounded r32
  let D := CFloat.rounded r64
  let v := x_ 0
  let y_e := x_ 2
  let psi_e := x_ 3
  let kappa := x_ 4
  let ml_1 := x_ 5
  let ml_2 := x_ 6
  let ml_3 := x_ 7
  let ml_4 := x_ 8
  let srv_a := x_ 9
  let srv_b := x_ 10
  let k1 := F (CFloat.exp L ml_1)
  let k2 := F (CFloat.exp L ml_2)
  let k3 := F (CFloat.exp L ml_3)
  let k4 := F (CFloat.exp L ml_4)
  let vmax_init := fmin SPEED_LIMIT (F (F (k1 - k4) / F (k2 + k3)))
  let lane_offset :=
    clip (F (LANE_OFFSET + F (kappa * LANEOFFSET_PER_K))) (fin (-1)) (fin 1)
  let psi_offset : CFloat α := fin 0
  let cpsi := F (CFloat.cos L (F (psi_e - psi_offset)))
  let spsi := F (CFloat.sin L (F (psi_e - psi_offset)))
  let dx := F (D (cpsi / D (fin 1 - F (kappa * y_e))))
  let k_target :=
    F (dx * F (F (F (F (F (-F (y_e - lane_offset) * dx) * kpy) * cpsi)
        - F (spsi * F (F (-kappa * spsi) - F (kvy * cpsi)))) + kappa))
  let steering_raw := F (F (k_target - srv_b) / srv_a)
  let steering_out := clip steering_raw (fin (-1)) (fin 1)
  let w_target := F (v * k_target)
  let k_limit := F (F (srv_a * steering_out) + srv_b)
  let sat_bound := F (w_target / k_limit)
  let vmax :=
    if CFloat.eq steering_out (fin (-1)) || CFloat.eq steering_out (fin 1) then
      -- steering is clamped, so we may need to further limit speed
      fmin vmax_init sat_bound
    else vmax_init
  let traction_speed := F (sqrtf L (F (TRACTION_LIMIT / fabs k_target)))
  let v_target := fmin vmax traction_speed
  { vmax_init := vmax_init, k_target := k_target, steering_raw := steering_raw,
    steering_out := steering_out, w_target := w_target, k_limit := k_limit,
    sat_bound := sat_bound, vmax := vmax, traction_speed := traction_speed,
    v_target := v_target }

end Rounding

section Orchestrator

variable {α : Type} [LinearOrderedField α]

/-- The estimator object `ekf`: its state vector `x_` (what `GetState()` returns a
reference to) and the rest of its data (the covariance), of a type `P` left open. -/
structure EKF (α : Type) (P : Type) where
  /-- The 12-component state vector. -/
  x_ : Fin 12 → CFloat α
  /-- The covariance. -/
  P_ : P

/-- The operations of the collaborators `UpdateState` calls: the estimator methods and the
centerline extractor `TophatFilter` (which, when it returns true, has written the fit
`B = (a, b, c)`, the intercept `yc` and the measurement covariance `Rk`). -/
structure Collab (α : Type) (P : Type) (R : Type) (Y : Type) where
  /-- The method `ekf.Reset()`. -/
  Reset : EKF α P → EKF α P
  /-- The method `ekf.Predict(dt, throttle, steering)`. -/
  Predict : CFloat α → CFloat α → CFloat α → EKF α P → EKF α P
  /-- The method `ekf.UpdateCenterline(a, b, c, yc, Rk)`. -/
  UpdateCenterline : CFloat α → CFloat α → CFloat α → CFloat α → R → EKF α P → EKF α P
  /-- The method `ekf.UpdateIMU(yaw_rate)`. -/
  UpdateIMU : CFloat α → EKF α P → EKF α P
  /-- The method `ekf.UpdateEncoders(speed, servo_pos)`. -/
  UpdateEncoders : CFloat α → Nat → EKF α P → EKF α P
  /-- The function `TophatFilter(yuv, &B, &yc, &Rk)`. -/
  TophatFilter : Y → Option (CFloat α × CFloat α × CFloat α × CFloat α × R)

/-- A call made to a collaborator, with its arguments. -/
inductive Call (α : Type) (R : Type) (Y : Type) where
  | Reset : Call α R Y
  | Predict (dt throttle steering : CFloat α) : Call α R Y
  | TophatFilter (yuv : Y) : Call α R Y
  | UpdateCenterline (a b c yc : CFloat α) (Rk : R) : Call α R Y
  | UpdateIMU (w : CFloat α) : Call α R Y
  | UpdateEncoders (speed : CFloat α) (servo_pos : Nat) : Call α R Y

/-- The object `DriveController`: its members `ekf`, `firstframe_` and `last_encoders_`,
and the log of the collaborator calls made so far (oldest first). -/
structure DriveController (α : Type) (P : Type) (R : Type) (Y : Type) where
  /-- Member `ekf`. -/
  ekf : EKF α P
  /-- Member `firstframe_`. -/
  firstframe_ : Bool
  /-- Member `uint16_t last_encoders_[4]`. -/
  last_encoders_ : Fin 4 → Nat
  /-- The calls made to the estimator and the extractor. -/
  calls : List (Call α R Y)

variable {P R Y : Type}

/-- Source: `void DriveController::ResetState()`. -/
def ResetState (E : Collab α P R Y) (d : DriveController α P R Y) :
    DriveController α P R Y :=
  { d with ekf := E.Reset d.ekf, calls := d.calls ++ [Call.Reset], firstframe_ := true }

/-- Source: `void DriveController::UpdateCamera(const uint8_t *yuv)`. -/
def UpdateCamera (E : Collab α P R Y) (yuv : Y) (d : DriveController α P R Y) :
    DriveController α P R Y :=
  let d := { d with calls := d.calls ++ [Call.TophatFilter yuv] }
  match E.TophatFilter yuv with
  | none => d
  | some (a, b, c, yc, Rk) =>
    -- ok, we've obtained our linear fit B and our measurement covariance Rk
    -- now do the sensor fusion step
    { d with ekf := E.UpdateCenterline a b c yc Rk d.ekf,
             calls := d.calls ++ [Call.UpdateCenterline a b c yc Rk] }

/-- The statement `if (x_[3] > M_PI/2) x_[3] -= M_PI; else if (x_[3] < -M_PI/2)
x_[3] += M_PI;` of `UpdateState`, on the value of `x_[3]`; `M_PI` is the constant of
`<math.h>`. -/
def foldPsi (M_PI : α) (x3 : CFloat α) : CFloat α :=
  if fin M_PI / fin 2 < x3 then x3 - fin M_PI
  else if x3 < -fin M_PI / fin 2 then x3 + fin M_PI
  else x3

/-- The conversion `(uint16_t) (wheel_encoders[i] - last_encoders_[i])`: the operands are
promoted to `int`, the difference is reduced modulo 2^16. -/
def encoderDelta (now last : Nat) : Nat :=
  (((now : Int) - (last : Int)) % 65536).toNat

/-- The loop `for (int i = 2; i < 4; i++)` of `UpdateState` over the rear encoders, from
`ds = 0, nds = 0`: returns `(ds, nds)`. -/
def rearEncoderSum (wheel_encoders last_encoders_ : Fin 4 → Nat) : CFloat α × CFloat α :=
  ([2, 3] : List (Fin 4)).foldl
    (fun (acc : CFloat α × CFloat α) i =>
      if wheel_encoders i ≠ last_encoders_ i then
        (acc.1 + fin ((encoderDelta (wheel_encoders i) (last_encoders_ i) : Nat) : α),
         acc.2 + fin 1)
      else acc)
    (fin 0, fin 0)

/-- Source: `void DriveController::UpdateState(const uint8_t *yuv, size_t yuvlen,
float throttle_in, float steering_in, const Vector3f &accel, const Vector3f &gyro,
uint8_t servo_pos, const uint16_t *wheel_encoders, float dt)`. -/
def UpdateState (E : Collab α P R Y) (M_PI : α) (yuv : Y) (yuvlen : Nat)
    (throttle_in steering_in : CFloat α) (accel gyro : Fin 3 → CFloat α)
    (servo_pos : Nat) (wheel_encoders : Fin 4 → Nat) (dt : CFloat α)
    (d : DriveController α P R Y) : DriveController α P R Y :=
  -- the parameter accel is not read
  let _ := accel
  if isinf (d.ekf.x_ 0) || isnan (d.ekf.x_ 0) then
    ResetState E d
  else
    let d := if d.firstframe_ then
        { d with last_encoders_ := wheel_encoders, firstframe_ := false }
      else d
    let d := { d with ekf := E.Predict dt throttle_in steering_in d.ekf,
                      calls := d.calls ++ [Call.Predict dt throttle_in steering_in] }
    let d := if yuvlen = 640 * 480 + 320 * 240 * 2 then UpdateCamera E yuv d else d
    let d := { d with ekf := E.UpdateIMU (gyro 2) d.ekf,
                      calls := d.calls ++ [Call.UpdateIMU (gyro 2)] }
    -- hack: force psi_e forward-facing
    let d := { d with ekf := { d.ekf with
                 x_ := Function.update d.ekf.x_ 3 (foldPsi M_PI (d.ekf.x_ 3)) } }
    -- average ds among wheel encoders which are actually moving
    let r : CFloat α × CFloat α := rearEncoderSum wheel_encoders d.last_encoders_
    let ds := r.1
    let nds := r.2
    let d := { d with last_encoders_ := wheel_encoders }
    -- and do an EKF update if the wheels are moving.
    if fin 0 < nds then
      { d with ekf := E.UpdateEncoders (ds / (nds * dt)) servo_pos d.ekf,
               calls := d.calls ++ [Call.UpdateEncoders (ds / (nds * dt)) servo_pos] }
    else
      { d with ekf := E.UpdateEncoders (fin 0) servo_pos d.ekf,
               calls := d.calls ++ [Call.UpdateEncoders (fin 0) servo_pos] }

/-- The estimator after the camera step of `UpdateState` (the statement
`if (yuvlen == 640*480 + 320*240*2) UpdateCamera(yuv);`), from the estimator `e` before. -/
def afterCamera (E : Collab α P R Y) (yuv : Y) (yuvlen : Nat) (e : EKF α P) : EKF α P :=
  if yuvlen = 640 * 480 + 320 * 240 * 2 then
    match E.TophatFilter yuv with
    | none => e
    | some (a, b, c, yc, Rk) => E.UpdateCenterline a b c yc Rk e
  else e

/-- The collaborator calls of the camera step of `UpdateState`. -/
def cameraCalls (E : Collab α P R Y) (yuv : Y) (yuvlen : Nat) : List (Call α R Y) :=
  if yuvlen = 640 * 480 + 320 * 240 * 2 then
    match E.TophatFilter yuv with
    | none => [Call.TophatFilter yuv]
    | some (a, b, c, yc, Rk) => [Call.TophatFilter yuv, Call.UpdateCenterline a b c yc Rk]
  else []

/-- The first argument of the `ekf.UpdateEncoders` call of `UpdateState`: `ds/(nds * dt)`
when `nds > 0` and `0` otherwise, where `snap` is `last_encoders_` as the loop reads it. -/
def encoderSpeed (wheel_encoders snap : Fin 4 → Nat) (dt : CFloat α) : CFloat α :=
  if fin 0 < (rearEncoderSum wheel_encoders snap : CFloat α × CFloat α).2 then
    (rearEncoderSum wheel_encoders snap : CFloat α × CFloat α).1 /
      ((rearEncoderSum wheel_encoders snap : CFloat α × CFloat α).2 * dt)
  else fin 0

/-- The estimator after the heading fold of `UpdateState`, from the estimator before. -/
def foldHeading (M_PI : α) (e : EKF α P) : EKF α P :=
  { e with x_ := Function.update e.x_ 3 (foldPsi M_PI (e.x_ 3)) }

end Orchestrator

/-! ## Sample data on the rationals -/

section Samples

/-- The value of the `<math.h>` constant `M_PI`, an IEEE double, as a rational number. -/
def M_PI_double : ℚ := 884279719003555 / 281474976710656

/-- A `Libm` on the rationals that is exact at the argument zero: `exp 0 = 1`,
`cos 0 = 1`, `sin 0 = 0`, `sqrt 0 = 0`. -/
def stubLibm : Libm ℚ :=
  { exp := fun _ => 1, cos := fun _ => 1, sin := fun _ => 0, sqrt := fun _ => 0 }

/-- A `Libm` on the rationals that is exact at `exp 0 = 1`, `cos 0 = 1`, `sin 0 = 0`,
`sqrt 0 = 0` and `sqrt 1 = 1`. -/
def unitLibm : Libm ℚ :=
  { exp := fun _ => 1, cos := fun _ => 1, sin := fun _ => 0, sqrt := fun x => x }

/-- A stub estimator and extractor: `Reset` installs the zero vector as state, the other
estimator methods leave the estimator as it is, the extractor reports no fit. -/
def stubCollab : Collab ℚ Unit Unit Unit :=
  { Reset := fun e => { e with x_ := fun _ => fin 0 }
    Predict := fun _ _ _ e => e
    UpdateCenterline := fun _ _ _ _ _ e => e
    UpdateIMU := fun _ e => e
    UpdateEncoders := fun _ _ e => e
    TophatFilter := fun _ => none }

/-- The stub collaborators, except that the extractor reports the fit `a = 1`, `b = 2`,
`c = 3` with intercept `yc = 4` on every frame. -/
def fitCollab : Collab ℚ Unit Unit Unit :=
  { stubCollab with TophatFilter := fun _ => some (fin 1, fin 2, fin 3, fin 4, ()) }

/-- The state vector with `srv_a = 1` and every other component zero. -/
def restState : Fin 12 → CFloat ℚ := fun i => if i = 9 then fin 1 else fin 0

/-- The state vector `restState` with its component `i` replaced by `x`. -/
def restStateWith (i : Fin 12) (x : CFloat ℚ) : Fin 12 → CFloat ℚ :=
  fun j => if j = i then x else restState j

/-- The state vector with speed `v`, curvature `kappa`, steering calibration `srv_a`,
`srv_b`, and every other component zero. -/
def sampleState (v kappa srv_a srv_b : ℚ) : Fin 12 → CFloat ℚ :=
  fun i => if i = 0 then fin v else if i = 4 then fin kappa else if i = 9 then fin srv_a
    else if i = 10 then fin srv_b else fin 0

/-- The state vector with speed `v`, curvature `kappa`, motor coefficient `ml_1`, steering
calibration `srv_a`, `srv_b`, and every other component zero. -/
def sampleStateExp (v kappa ml_1 srv_a srv_b : ℚ) : Fin 12 → CFloat ℚ :=
  fun i => if i = 0 then fin v else if i = 4 then fin kappa else if i = 5 then fin ml_1
    else if i = 9 then fin srv_a else if i = 10 then fin srv_b else fin 0

/-- Values of the binary32 `<math.h>` functions at the arguments the examples use:
`exp 0 = 1`, `exp 3 = 20.085537` (the binary32 number 5265303/2^18), `cos 0 = 1`,
`sin 0 = 0`, and the correctly rounded square roots of the binary32 numbers
0, 1, 11744051/2^21 = 5.5999999, 11184811/2^23 = 1.3333334 and 9697813/2^22 = 2.3121388. -/
def f32Libm : Libm ℚ :=
  { exp := fun x => if x = 3 then 5265303 / 262144 else 1
    cos := fun _ => 1
    sin := fun _ => 0
    sqrt := fun x =>
      if x = 11744051 / 2097152 then 9925535 / 4194304
      else if x = 11184811 / 8388608 then 4843165 / 4194304
      else if x = 9697813 / 4194304 then 12755481 / 8388608
      else x }

/-- The state `v = 0.9f`, `kappa = 3`, `ml_1 = 3`, `srv_a = 3`, `srv_b = 0` (every other
component zero); `0.9f` is the binary32 number 7549747/2^23. -/
def saturatedState : Fin 12 → CFloat ℚ := sampleStateExp (7549747 / 8388608) 3 3 3 0

/-- The state `kappa = -1.73f`, `srv_a = 4.71f`, `srv_b = 0.62f` (every other component
zero): the binary32 numbers -3628073/2^21, 4938793/2^20 and 5200937/2^23. -/
def calibratedState : Fin 12 → CFloat ℚ :=
  sampleStateExp 0 (-(3628073 / 2097152)) 0 (4938793 / 1048576) (5200937 / 8388608)

/-- The state `v = -10`, `kappa = 4`, `srv_a = 1` (every other component zero). -/
def reverseState : Fin 12 → CFloat ℚ := sampleStateExp (-10) 4 0 1 0

/-- The state `kappa = 0.71428573f`, `ml_1 = 3`, `srv_a = 1` (every other component zero);
`0.71428573f` is the binary32 number 5991863/2^23. -/
def curveState : Fin 12 → CFloat ℚ := sampleStateExp 0 (5991863 / 8388608) 3 1 0

/-- Four encoder counts. -/
def enc4 (a b c d : Nat) : Fin 4 → Nat :=
  fun i => if i = 0 then a else if i = 1 then b else if i = 2 then c else d

/-- A controller over the stub collaborators, with an empty call log. -/
def stubController (x_ : Fin 12 → CFloat ℚ) (firstframe_ : Bool)
    (last_encoders_ : Fin 4 → Nat) : DriveController ℚ Unit Unit Unit :=
  { ekf := { x_ := x_, P_ := () }, firstframe_ := firstframe_,
    last_encoders_ := last_encoders_, calls := [] }

/-- A three-component vector with all components zero. -/
def zero3 : Fin 3 → CFloat ℚ := fun _ => fin 0

end Samples

/-! ## Arithmetic of `CFloat` on finite values -/

section Lemmas

variable {α : Type} [LinearOrderedField α]

@[simp] theorem fin_add_fin (a b : α) : (fin a + fin b : CFloat α) = fin (a + b) := rfl

@[simp] theorem fin_sub_fin (a b : α) : (fin a - fin b : CFloat α) = fin (a - b) := by
  show CFloat.add (fin a) (CFloat.neg (fin b)) = fin (a - b)
  simp [CFloat.add, CFloat.neg, sub_eq_add_neg]

@[simp] theorem neg_fin (a : α) : (-fin a : CFloat α) = fin (-a) := rfl

@[simp] theorem fin_mul_fin (a b : α) : (fin a * fin b : CFloat α) = fin (a * b) := rfl

theorem fin_div_fin (a b : α) :
    (fin a / fin b : CFloat α) = if b = 0 then infTimes true a else fin (a / b) := rfl

@[simp] theorem fin_div_fin_of_ne (a : α) {b : α} (hb : b ≠ 0) :
    (fin a / fin b : CFloat α) = fin (a / b) := by
  rw [fin_div_fin, if_neg hb]

@[simp] theorem fin_lt_fin (a b : α) : (fin a < fin b) ↔ a < b := by
  show CFloat.lt (fin a) (fin b) = true ↔ a < b
  simp [CFloat.lt]

@[simp] theorem not_nan_lt (x : CFloat α) : ¬ (nan < x) := by
  show ¬ (CFloat.lt nan x = true)
  simp [CFloat.lt]

@[simp] theorem not_lt_nan (x : CFloat α) : ¬ (x < nan) := by
  show ¬ (CFloat.lt x nan = true)
  cases x <;> simp [CFloat.lt]

@[simp] theorem fin_lt_pinf (a : α) : (fin a : CFloat α) < pinf := by
  show CFloat.lt (fin a) pinf = true
  rfl

@[simp] theorem ninf_lt_fin (a : α) : (ninf : CFloat α) < fin a := by
  show CFloat.lt ninf (fin a) = true
  rfl

@[simp] theorem ninf_lt_pinf : (ninf : CFloat α) < pinf := by
  show CFloat.lt ninf pinf = true
  rfl

@[simp] theorem not_pinf_lt (x : CFloat α) : ¬ (pinf < x) := by
  show ¬ (CFloat.lt pinf x = true)
  simp [CFloat.lt]

@[simp] theorem not_lt_ninf (x : CFloat α) : ¬ (x < ninf) := by
  show ¬ (CFloat.lt x ninf = true)
  cases x <;> simp [CFloat.lt]

@[simp] theorem pinf_add_fin (a : α) : (pinf + fin a : CFloat α) = pinf := rfl

@[simp] theorem ninf_add_fin (a : α) : (ninf + fin a : CFloat α) = ninf := rfl

@[simp] theorem fin_add_pinf (a : α) : (fin a + pinf : CFloat α) = pinf := rfl

@[simp] theorem fin_add_ninf (a : α) : (fin a + ninf : CFloat α) = ninf := rfl

@[simp] theorem pinf_sub_fin (a : α) : (pinf - fin a : CFloat α) = pinf := rfl

@[simp] theorem ninf_sub_fin (a : α) : (ninf - fin a : CFloat α) = ninf := rfl

@[simp] theorem nan_add (x : CFloat α) : (nan + x : CFloat α) = nan := rfl

@[simp] theorem add_nan (x : CFloat α) : (x + nan : CFloat α) = nan := by
  show CFloat.add x nan = nan
  cases x <;> rfl

@[simp] theorem nan_sub (x : CFloat α) : (nan - x : CFloat α) = nan := rfl

@[simp] theorem nan_mul (x : CFloat α) : (nan * x : CFloat α) = nan := rfl

@[simp] theorem nan_div (x : CFloat α) : (nan / x : CFloat α) = nan := rfl

@[simp] theorem neg_nan : (-nan : CFloat α) = nan := rfl

@[simp] theorem neg_pinf : (-pinf : CFloat α) = ninf := rfl

@[simp] theorem neg_ninf : (-ninf : CFloat α) = pinf := rfl

@[simp] theorem fin_div_pinf (a : α) : (fin a / pinf : CFloat α) = fin 0 := rfl

@[simp] theorem fin_div_ninf (a : α) : (fin a / ninf : CFloat α) = fin 0 := rfl

@[simp] theorem fin_ne_nan {β : Type} (a : β) : (fin a : CFloat β) ≠ nan :=
  fun h => CFloat.noConfusion h

@[simp] theorem pinf_ne_nan {β : Type} : (pinf : CFloat β) ≠ nan :=
  fun h => CFloat.noConfusion h

@[simp] theorem ninf_ne_nan {β : Type} : (ninf : CFloat β) ≠ nan :=
  fun h => CFloat.noConfusion h

@[simp] theorem eq_fin_fin (a b : α) : CFloat.eq (fin a) (fin b) = decide (a = b) := rfl

theorem one_mul_cfloat (x : CFloat α) : fin 1 * x = x := by
  show CFloat.mul (fin 1) x = x
  cases x <;> simp [CFloat.mul, infTimes]

/-- A value that is not NaN is clipped into the closed interval `[lo, hi]`. -/
theorem clip_fin_mem {x : CFloat α} (hx : x ≠ nan) {lo hi : α} (h : lo ≤ hi) :
    ∃ y : α, clip x (fin lo) (fin hi) = fin y ∧ lo ≤ y ∧ y ≤ hi := by
  unfold clip
  cases x with
  | nan => exact absurd rfl hx
  | pinf =>
    have h1 : ¬ ((pinf : CFloat α) < fin lo) := by
      show ¬ (CFloat.lt pinf (fin lo) = true)
      simp [CFloat.lt]
    have h2 : (fin hi : CFloat α) < pinf := by
      show CFloat.lt (fin hi) pinf = true
      simp [CFloat.lt]
    rw [if_neg h1, if_pos h2]
    exact ⟨hi, rfl, h, le_refl _⟩
  | ninf =>
    have h1 : (ninf : CFloat α) < fin lo := by
      show CFloat.lt ninf (fin lo) = true
      simp [CFloat.lt]
    rw [if_pos h1]
    exact ⟨lo, rfl, le_refl _, h⟩
  | fin a =>
    by_cases h1 : a < lo
    · rw [if_pos ((fin_lt_fin a lo).2 h1)]
      exact ⟨lo, rfl, le_refl _, h⟩
    · rw [if_neg (fun hh => h1 ((fin_lt_fin a lo).1 hh))]
      by_cases h2 : hi < a
      · rw [if_pos ((fin_lt_fin hi a).2 h2)]
        exact ⟨hi, rfl, h, le_refl _⟩
      · rw [if_neg (fun hh => h2 ((fin_lt_fin hi a).1 hh))]
        exact ⟨a, rfl, not_lt.1 h1, not_lt.1 h2⟩

/-- NaN passes through `clip` unchanged. -/
theorem clip_nan (lo hi : CFloat α) : clip nan lo hi = nan := by
  unfold clip
  rw [if_neg (not_nan_lt lo), if_neg (not_lt_nan hi)]

/-- The value of `MotorControl` is finite and in `[-1, 1]` as soon as its duty-cycle
quotient is not NaN. -/
theorem MotorControl_fin_mem (accel k1 k2 k3 k4 v : CFloat α)
    (hq : (accel + k3 * v + k4) /
        ((if -k3 * v - k4 < accel then (fin 1 : CFloat α) else fin 0) * k1 - k2 * v) ≠ nan) :
    ∃ m : α, MotorControl accel k1 k2 k3 k4 v = fin m ∧ -1 ≤ m ∧ m ≤ 1 := by
  obtain ⟨y, hy, h0, h1⟩ := clip_fin_mem hq (zero_le_one : (0 : α) ≤ 1)
  unfold MotorControl
  simp only []
  rw [hy]
  have b1 : (-1 : α) ≤ y := by linarith
  have b2 : (-1 : α) ≤ -y := by linarith
  have b3 : -y ≤ 1 := by linarith
  by_cases hV : -k3 * v - k4 < accel
  · refine ⟨y, ?_, b1, h1⟩
    simp [hV]
  · refine ⟨-y, ?_, b2, b3⟩
    simp [hV]

/-- The narrowing conversion, on 16-bit operands: the difference when the counter did not
wrap, the difference plus 2^16 when it did. -/
theorem encoderDelta_eq (now last : Nat) (hn : now < 65536) (hl : last < 65536) :
    encoderDelta now last = if last ≤ now then now - last else now + 65536 - last := by
  unfold encoderDelta
  split <;> omega

/-- The loop over the rear encoders in closed form. -/
theorem rearEncoderSum_eq (w l : Fin 4 → Nat) :
    (rearEncoderSum w l : CFloat α × CFloat α) =
      (fin ((((if w 2 ≠ l 2 then encoderDelta (w 2) (l 2) else 0)
          + (if w 3 ≠ l 3 then encoderDelta (w 3) (l 3) else 0) : Nat)) : α),
       fin ((((if w 2 ≠ l 2 then 1 else 0) + (if w 3 ≠ l 3 then 1 else 0) : Nat)) : α)) := by
  unfold rearEncoderSum
  by_cases h2 : w 2 = l 2 <;> by_cases h3 : w 3 = l 3 <;> simp [List.foldl, h2, h3]
  norm_num

/-- The speed observation in closed form, for a finite nonzero `dt`. -/
theorem encoderSpeed_eq (w l : Fin 4 → Nat) {t : α} (ht : t ≠ 0) :
    encoderSpeed w l (fin t) =
      fin (if w 2 = l 2 ∧ w 3 = l 3 then 0
        else ((((if w 2 ≠ l 2 then encoderDelta (w 2) (l 2) else 0)
                + (if w 3 ≠ l 3 then encoderDelta (w 3) (l 3) else 0) : Nat)) : α) /
             (((((if w 2 ≠ l 2 then 1 else 0) + (if w 3 ≠ l 3 then 1 else 0) : Nat)) : α) * t)) := by
  unfold encoderSpeed
  rw [rearEncoderSum_eq]
  by_cases h2 : w 2 = l 2 <;> by_cases h3 : w 3 = l 3 <;> simp [h2, h3, ht]

/-- The speed observation is zero when the reading is compared with itself. -/
theorem encoderSpeed_self (w : Fin 4 → Nat) (dt : CFloat α) :
    encoderSpeed w w dt = fin 0 := by
  unfold encoderSpeed
  rw [rearEncoderSum_eq]
  simp

/-- The speed observation reads only the rear entries of reading and snapshot. -/
theorem encoderSpeed_congr (w1 w2 l1 l2 : Fin 4 → Nat) (dt : CFloat α)
    (hw2 : w1 2 = w2 2) (hw3 : w1 3 = w2 3) (hl2 : l1 2 = l2 2) (hl3 : l1 3 = l2 3) :
    encoderSpeed w1 l1 dt = encoderSpeed w2 l2 dt := by
  unfold encoderSpeed
  rw [rearEncoderSum_eq, rearEncoderSum_eq, hw2, hw3, hl2, hl3]

/-- A tick that is not aborted, written out: the four members afterwards. -/
theorem UpdateState_run {P R Y : Type} (E : Collab α P R Y) (M_PI : α)
    (yuv : Y) (yuvlen : Nat) (throttle_in steering_in : CFloat α)
    (accel gyro : Fin 3 → CFloat α) (servo_pos : Nat) (wheel_encoders : Fin 4 → Nat)
    (dt : CFloat α) (d : DriveController α P R Y)
    (h : (isinf (d.ekf.x_ 0) || isnan (d.ekf.x_ 0)) = false) :
    UpdateState E M_PI yuv yuvlen throttle_in steering_in accel gyro servo_pos
        wheel_encoders dt d =
      { ekf := E.UpdateEncoders
          (encoderSpeed wheel_encoders
            (if d.firstframe_ then wheel_encoders else d.last_encoders_) dt) servo_pos
          (foldHeading M_PI (E.UpdateIMU (gyro 2)
            (afterCamera E yuv yuvlen (E.Predict dt throttle_in steering_in d.ekf)))),
        firstframe_ := false,
        last_encoders_ := wheel_encoders,
        calls := d.calls ++ [Call.Predict dt throttle_in steering_in]
          ++ cameraCalls E yuv yuvlen
          ++ [Call.UpdateIMU (gyro 2),
              Call.UpdateEncoders (encoderSpeed wheel_encoders
                (if d.firstframe_ then wheel_encoders else d.last_encoders_) dt) servo_pos] } := by
  unfold UpdateState
  simp only [h]
  by_cases hy : yuvlen = 460800 <;> by_cases hf : d.firstframe_ = true
  · rcases hT : E.TophatFilter yuv with _ | ⟨a, b, c, yc, Rk⟩ <;>
      by_cases hn : fin 0 <
        (rearEncoderSum wheel_encoders wheel_encoders : CFloat α × CFloat α).2 <;>
      simp [hy, hf, hT, hn, UpdateCamera, afterCamera, cameraCalls, encoderSpeed, foldHeading]
  · rcases hT : E.TophatFilter yuv with _ | ⟨a, b, c, yc, Rk⟩ <;>
      by_cases hn : fin 0 <
        (rearEncoderSum wheel_encoders d.last_encoders_ : CFloat α × CFloat α).2 <;>
      simp [hy, hf, hT, hn, UpdateCamera, afterCamera, cameraCalls, encoderSpeed, foldHeading]
  · by_cases hn : fin 0 <
        (rearEncoderSum wheel_encoders wheel_encoders : CFloat α × CFloat α).2 <;>
      simp [hy, hf, hn, UpdateCamera, afterCamera, cameraCalls, encoderSpeed, foldHeading]
  · by_cases hn : fin 0 <
        (rearEncoderSum wheel_encoders d.last_encoders_ : CFloat α × CFloat α).2 <;>
      simp [hy, hf, hn, UpdateCamera, afterCamera, cameraCalls, encoderSpeed, foldHeading]

/-- The heading fold on a finite value. -/
theorem foldPsi_fin (M_PI x : α) :
    foldPsi M_PI (fin x) =
      fin (if M_PI / 2 < x then x - M_PI else if x < -M_PI / 2 then x + M_PI else x) := by
  unfold foldPsi
  have h2 : (2 : α) ≠ 0 := two_ne_zero
  by_cases h1 : M_PI / 2 < x
  · simp [h1, h2]
  · by_cases h3 : x < -M_PI / 2 <;> simp [h1, h3, h2]

/-- The calls of the camera step: only on a frame of the expected length, the extractor
call and, when the extractor reports a fit, the centerline update with that fit. -/
theorem mem_cameraCalls {β P R Y : Type} (E : Collab β P R Y) (yuv : Y) (yuvlen : Nat)
    {c : Call β R Y} (hc : c ∈ cameraCalls E yuv yuvlen) :
    yuvlen = 460800 ∧
      (c = Call.TophatFilter yuv ∨
        ∃ a b c' yc Rk, E.TophatFilter yuv = some (a, b, c', yc, Rk) ∧
          c = Call.UpdateCenterline a b c' yc Rk) := by
  unfold cameraCalls at hc
  by_cases hy : yuvlen = 640 * 480 + 320 * 240 * 2
  · rw [if_pos hy] at hc
    refine ⟨by omega, ?_⟩
    rcases hT : E.TophatFilter yuv with _ | ⟨a, b, c', yc, Rk⟩
    · rw [hT] at hc
      simp only [List.mem_singleton] at hc
      exact Or.inl hc
    · rw [hT] at hc
      simp only [List.mem_cons, List.mem_singleton, List.not_mem_nil, or_false] at hc
      rcases hc with hc | hc
      · exact Or.inl hc
      · exact Or.inr ⟨a, b, c', yc, Rk, rfl, hc⟩
  · rw [if_neg hy] at hc
    simp at hc

/-- The local `vmax` before the saturation step. -/
theorem vars_vmax_init (L : Libm α) (x_ : Fin 12 → CFloat α) (dt : CFloat α) :
    (GetControl.vars L x_ dt).vmax_init =
      fmin SPEED_LIMIT ((CFloat.exp L (x_ 5) - CFloat.exp L (x_ 8)) /
        (CFloat.exp L (x_ 6) + CFloat.exp L (x_ 7))) := rfl

/-- The output `*steering_out` from the local `k_target`. -/
theorem vars_steering_out (L : Libm α) (x_ : Fin 12 → CFloat α) (dt : CFloat α) :
    (GetControl.vars L x_ dt).steering_out =
      clip (((GetControl.vars L x_ dt).k_target - x_ 10) / x_ 9) (fin (-1)) (fin 1) := rfl

/-- The saturation step. -/
theorem vars_vmax (L : Libm α) (x_ : Fin 12 → CFloat α) (dt : CFloat α) :
    (GetControl.vars L x_ dt).vmax =
      if CFloat.eq (GetControl.vars L x_ dt).steering_out (fin (-1)) ||
          CFloat.eq (GetControl.vars L x_ dt).steering_out (fin 1) then
        fmin (GetControl.vars L x_ dt).vmax_init
          (x_ 0 * (GetControl.vars L x_ dt).k_target /
            (x_ 9 * (GetControl.vars L x_ dt).steering_out + x_ 10))
      else (GetControl.vars L x_ dt).vmax_init := rfl

/-- The local `v_target`. -/
theorem vars_v_target (L : Libm α) (x_ : Fin 12 → CFloat α) (dt : CFloat α) :
    (GetControl.vars L x_ dt).v_target =
      fmin (GetControl.vars L x_ dt).vmax
        (sqrtf L (TRACTION_LIMIT / fabs (GetControl.vars L x_ dt).k_target)) := rfl

/-- The local `a_target` as first assigned. -/
theorem vars_a_target_init (L : Libm α) (x_ : Fin 12 → CFloat α) (dt : CFloat α) :
    (GetControl.vars L x_ dt).a_target_init =
      clip ((GetControl.vars L x_ dt).v_target - x_ 0) BRAKE_LIMIT ACCEL_LIMIT / dt := rfl

/-- The local `k_target` at zero lateral offset and zero heading error, for a finite
curvature and a `Libm` with `cos 0 = 1` and `sin 0 = 0`. -/
theorem vars_k_target_on_path (L : Libm α) (x_ : Fin 12 → CFloat α) (dt : CFloat α)
    (kappa : α) (hcos : L.cos 0 = 1) (hsin : L.sin 0 = 0)
    (hy : x_ 2 = fin 0) (hpsi : x_ 3 = fin 0) (hk : x_ 4 = fin kappa) :
    (GetControl.vars L x_ dt).k_target = fin kappa := by
  norm_num [GetControl.vars, hy, hpsi, hk, hcos, hsin, clip, CFloat.cos, CFloat.sin,
    LANE_OFFSET, LANEOFFSET_PER_K, kpy, kvy]

/-- The calls of a tick before `UpdateEncoders` are no `UpdateEncoders` calls. -/
theorem not_updateEncoders_of_mem {β P R Y : Type} (E : Collab β P R Y) (yuv : Y)
    (yuvlen : Nat) (dt throttle_in steering_in w : CFloat β) {c : Call β R Y}
    (hc : c ∈ [Call.Predict dt throttle_in steering_in] ++ cameraCalls E yuv yuvlen
      ++ [Call.UpdateIMU w]) (speed : CFloat β) (pos : Nat) :
    c ≠ Call.UpdateEncoders speed pos := by
  simp only [List.mem_append, List.mem_singleton] at hc
  rcases hc with (hc | hc) | hc
  · simp [hc]
  · rcases (mem_cameraCalls E yuv yuvlen hc).2 with h | ⟨a, b, c', yc, Rk, _, h⟩ <;>
      simp [h]
  · simp [hc]

/-- The result of `fmin` with a first operand that is not NaN is at most that operand. -/
theorem fmin_le_left {a : CFloat α} (ha : a ≠ nan) (b : CFloat α) :
    CFloat.le (fmin a b) a = true := by
  cases a with
  | nan => exact absurd rfl ha
  | pinf => cases b <;> simp [CFloat.fmin, CFloat.le]
  | ninf => cases b <;> simp [CFloat.fmin, CFloat.le]
  | fin a =>
    cases b with
    | nan => simp [CFloat.fmin, CFloat.le]
    | pinf => simp [CFloat.fmin, CFloat.le]
    | ninf => simp [CFloat.fmin, CFloat.le]
    | fin b =>
      by_cases h : a < b
      · simp [CFloat.fmin, CFloat.le, h]
      · simp [CFloat.fmin, CFloat.le, h, not_lt.1 h]

/-- The result of `fmin` with a finite first operand is not NaN. -/
theorem fmin_fin_ne_nan (a : α) (b : CFloat α) : fmin (fin a) b ≠ nan := by
  cases b with
  | nan => simp [CFloat.fmin]
  | pinf => simp [CFloat.fmin]
  | ninf => simp [CFloat.fmin]
  | fin b =>
    by_cases h : a < b <;> simp [CFloat.fmin, h]

/-- A finite result of `fmin` with a finite second operand is at most that operand. -/
theorem fmin_fin_right_le {x : CFloat α} {s y : α} (h : fmin x (fin s) = fin y) : y ≤ s := by
  cases x with
  | nan =>
    simp [CFloat.fmin] at h
    exact le_of_eq h.symm
  | pinf =>
    simp [CFloat.fmin] at h
    exact le_of_eq h.symm
  | ninf => simp [CFloat.fmin] at h
  | fin a =>
    by_cases hlt : a < s
    · simp [CFloat.fmin, hlt] at h
      rw [← h]
      exact le_of_lt hlt
    · simp [CFloat.fmin, hlt] at h
      exact le_of_eq h.symm

/-- A value of absolute value above 1 is clipped to `1` or to `-1`, by its sign. -/
theorem clip_of_one_lt_fabs {q : CFloat α} (h : fin 1 < fabs q) :
    (fin 1 < q ∧ clip q (fin (-1)) (fin 1) = fin 1) ∨
    (q < fin (-1) ∧ clip q (fin (-1)) (fin 1) = fin (-1)) := by
  cases q with
  | nan => simp [CFloat.fabs] at h
  | pinf => exact Or.inl ⟨fin_lt_pinf 1, by simp [clip]⟩
  | ninf => exact Or.inr ⟨ninf_lt_fin (-1), by simp [clip]⟩
  | fin c =>
    simp only [CFloat.fabs, fin_lt_fin] at h
    rcases lt_abs.1 h with h1 | h1
    · refine Or.inl ⟨(fin_lt_fin 1 c).2 h1, ?_⟩
      have h2 : ¬ c < -1 := by linarith
      simp [clip, h1, h2]
    · have h2 : c < -1 := by linarith
      exact Or.inr ⟨(fin_lt_fin c (-1)).2 h2, by simp [clip, h2]⟩

/-- A value strictly between `-1` and `1` is finite and is left unchanged by `clip`. -/
theorem clip_of_strictly_inside {q : CFloat α} (h1 : fin (-1) < q) (h2 : q < fin 1) :
    ∃ c : α, q = fin c ∧ -1 < c ∧ c < 1 ∧ clip q (fin (-1)) (fin 1) = fin c := by
  cases q with
  | nan => simp at h1
  | pinf => simp at h2
  | ninf => simp at h1
  | fin c =>
    rw [fin_lt_fin] at h1 h2
    refine ⟨c, rfl, h1, h2, ?_⟩
    have h3 : ¬ c < -1 := by linarith
    have h4 : ¬ 1 < c := by linarith
    simp [clip, h3, h4]

/-- A finite quotient by a nonzero finite divisor of a difference: both operands of the
difference are finite. -/
theorem fin_of_sub_div_fin {x y : CFloat α} {a c : α} (ha : a ≠ 0)
    (h : (x - y) / fin a = fin c) :
    ∃ k b, x = fin k ∧ y = fin b ∧ (k - b) / a = c := by
  have h' : CFloat.div (CFloat.add x (CFloat.neg y)) (fin a) = fin c := h
  cases x <;> cases y <;> simp [CFloat.div, CFloat.add, CFloat.neg, ha] at h'
  all_goals first
    | (split_ifs at h')
    | skip
  rename_i k b
  exact ⟨k, b, rfl, rfl, by rw [sub_eq_add_neg]; exact h'⟩

/-- A finite value that is clipped to `1` is at least 1. -/
theorem one_le_of_clip_eq_one {c : α} (h : clip (fin c) (fin (-1)) (fin 1) = fin 1) :
    1 ≤ c := by
  unfold clip at h
  by_cases h1 : c < -1
  · simp [h1] at h
    norm_num at h
  · by_cases h2 : 1 < c
    · exact le_of_lt h2
    · simp [h1, h2] at h
      exact le_of_eq h.symm

/-- The result of `fmin` with a second operand that is not NaN is at most that operand. -/
theorem fmin_le_right (a : CFloat α) {b : CFloat α} (hb : b ≠ nan) :
    CFloat.le (fmin a b) b = true := by
  cases b with
  | nan => exact absurd rfl hb
  | pinf => cases a <;> simp [CFloat.fmin, CFloat.le]
  | ninf => cases a <;> simp [CFloat.fmin, CFloat.le]
  | fin b =>
    cases a with
    | nan => simp [CFloat.fmin, CFloat.le]
    | pinf => simp [CFloat.fmin, CFloat.le]
    | ninf => simp [CFloat.fmin, CFloat.le]
    | fin a =>
      by_cases h : a < b
      · simp [CFloat.fmin, CFloat.le, h, le_of_lt h]
      · simp [CFloat.fmin, CFloat.le, h]

/-- Rounding of a finite exact result. -/
theorem rounded_fin {β : Type} (r : β → CFloat β) (c : β) :
    CFloat.rounded r (fin c) = r c := rfl

/-- With the rounding that changes nothing, an operation returns its exact result. -/
theorem rounded_exact {β : Type} (x : CFloat β) : CFloat.rounded fin x = x := by
  cases x <;> rfl

/-- The unclamped steering of the rounded computation. -/
theorem rvars_steering_raw (r32 r64 : α → CFloat α) (L : Libm α) (x_ : Fin 12 → CFloat α) :
    (GetControl.roundedVars r32 r64 L x_).steering_raw =
      CFloat.rounded r32 (CFloat.rounded r32
        ((GetControl.roundedVars r32 r64 L x_).k_target - x_ 10) / x_ 9) := rfl

/-- The steering output of the rounded computation. -/
theorem rvars_steering_out (r32 r64 : α → CFloat α) (L : Libm α) (x_ : Fin 12 → CFloat α) :
    (GetControl.roundedVars r32 r64 L x_).steering_out =
      clip (GetControl.roundedVars r32 r64 L x_).steering_raw (fin (-1)) (fin 1) := rfl

/-- The ceiling before the saturation step, in the rounded computation. -/
theorem rvars_vmax_init (r32 r64 : α → CFloat α) (L : Libm α) (x_ : Fin 12 → CFloat α) :
    (GetControl.roundedVars r32 r64 L x_).vmax_init =
      fmin SPEED_LIMIT (CFloat.rounded r32
        (CFloat.rounded r32 (CFloat.rounded r32 (CFloat.exp L (x_ 5))
            - CFloat.rounded r32 (CFloat.exp L (x_ 8))) /
          CFloat.rounded r32 (CFloat.rounded r32 (CFloat.exp L (x_ 6))
            + CFloat.rounded r32 (CFloat.exp L (x_ 7))))) := rfl

/-- The saturation step of the rounded computation. -/
theorem rvars_vmax (r32 r64 : α → CFloat α) (L : Libm α) (x_ : Fin 12 → CFloat α) :
    (GetControl.roundedVars r32 r64 L x_).vmax =
      if CFloat.eq (GetControl.roundedVars r32 r64 L x_).steering_out (fin (-1)) ||
          CFloat.eq (GetControl.roundedVars r32 r64 L x_).steering_out (fin 1) then
        fmin (GetControl.roundedVars r32 r64 L x_).vmax_init
          (GetControl.roundedVars r32 r64 L x_).sat_bound
      else (GetControl.roundedVars r32 r64 L x_).vmax_init := rfl

/-- The local `w_target` of the rounded computation. -/
theorem rvars_w_target (r32 r64 : α → CFloat α) (L : Libm α) (x_ : Fin 12 → CFloat α) :
    (GetControl.roundedVars r32 r64 L x_).w_target =
      CFloat.rounded r32 (x_ 0 * (GetControl.roundedVars r32 r64 L x_).k_target) := rfl

/-- The local `k_limit` of the rounded computation. -/
theorem rvars_k_limit (r32 r64 : α → CFloat α) (L : Libm α) (x_ : Fin 12 → CFloat α) :
    (GetControl.roundedVars r32 r64 L x_).k_limit =
      CFloat.rounded r32 (CFloat.rounded r32
        (x_ 9 * (GetControl.roundedVars r32 r64 L x_).steering_out) + x_ 10) := rfl

/-- The saturation bound of the rounded computation. -/
theorem rvars_sat_bound (r32 r64 : α → CFloat α) (L : Libm α) (x_ : Fin 12 → CFloat α) :
    (GetControl.roundedVars r32 r64 L x_).sat_bound =
      CFloat.rounded r32 ((GetControl.roundedVars r32 r64 L x_).w_target /
        (GetControl.roundedVars r32 r64 L x_).k_limit) := rfl

/-- The traction speed of the rounded computation. -/
theorem rvars_traction_speed (r32 r64 : α → CFloat α) (L : Libm α)
    (x_ : Fin 12 → CFloat α) :
    (GetControl.roundedVars r32 r64 L x_).traction_speed =
      CFloat.rounded r32 (sqrtf L (CFloat.rounded r32
        (TRACTION_LIMIT / fabs (GetControl.roundedVars r32 r64 L x_).k_target))) := rfl

/-- The local `v_target` of the rounded computation. -/
theorem rvars_v_target (r32 r64 : α → CFloat α) (L : Libm α) (x_ : Fin 12 → CFloat α) :
    (GetControl.roundedVars r32 r64 L x_).v_target =
      fmin (GetControl.roundedVars r32 r64 L x_).vmax
        (GetControl.roundedVars r32 r64 L x_).traction_speed := rfl

/-- With the rounding that changes nothing, the rounded computation is the exact one. -/
theorem roundedVars_exact (L : Libm α) (x_ : Fin 12 → CFloat α) (dt : CFloat α) :
    (GetControl.roundedVars fin fin L x_).vmax_init = (GetControl.vars L x_ dt).vmax_init ∧
    (GetControl.roundedVars fin fin L x_).k_target = (GetControl.vars L x_ dt).k_target ∧
    (GetControl.roundedVars fin fin L x_).steering_out
      = (GetControl.vars L x_ dt).steering_out ∧
    (GetControl.roundedVars fin fin L x_).vmax = (GetControl.vars L x_ dt).vmax ∧
    (GetControl.roundedVars fin fin L x_).v_target = (GetControl.vars L x_ dt).v_target := by
  simp only [GetControl.roundedVars, GetControl.vars, rounded_exact]
  simp

/-- Evaluation of `roundBinary` from the numerator and denominator of its argument and the
value of `roundCore` on them. -/
theorem roundBinary_eval {p : Nat} {emin emax : Int} {q : ℚ} (n d k a b : Nat) (hq : q ≠ 0)
    (hn : q.num.natAbs = n) (hd : q.den = d)
    (hc : roundCore p emin emax n d = some (k, a, b)) :
    roundBinary p emin emax q =
      if 0 < q then fin (((k * 2 ^ a : Nat) : ℚ) / ((2 ^ b : Nat) : ℚ))
      else fin (-(((k * 2 ^ a : Nat) : ℚ) / ((2 ^ b : Nat) : ℚ))) := by
  unfold roundBinary
  rw [if_neg hq, hn, hd, hc]

/-- Rounding of zero. -/
theorem roundF32_zero : roundF32 0 = fin 0 := by
  unfold roundF32 roundBinary
  simp

/-- With enough fuel `ilog2` is the floor of the binary logarithm. -/
theorem ilog2_spec (fuel : Nat) : ∀ n : Nat, 1 ≤ n → n < 2 ^ fuel →
    2 ^ ilog2 fuel n ≤ n ∧ n < 2 ^ (ilog2 fuel n + 1) := by
  induction fuel with
  | zero =>
    intro n h1 h2
    simp at h2
    omega
  | succ m ih =>
    intro n h1 h2
    unfold ilog2
    by_cases h : n < 2
    · simp only [if_pos h]
      constructor
      · simpa using h1
      · simpa using h
    · simp only [if_neg h]
      have h3 : 1 ≤ n / 2 := by omega
      have h4 : n / 2 < 2 ^ m := by
        rw [pow_succ] at h2
        omega
      obtain ⟨i1, i2⟩ := ih (n / 2) h3 h4
      constructor
      · rw [pow_succ]
        omega
      · rw [pow_succ]
        omega

/-- The fuel `n` is enough for `n`. -/
theorem ilog2_self (n : Nat) (h : 1 ≤ n) :
    2 ^ ilog2 n n ≤ n ∧ n < 2 ^ (ilog2 n n + 1) :=
  ilog2_spec n n h (Nat.lt_two_pow n)

/-- A power of two with an integer exponent, from the two natural-number exponents. -/
theorem zpow_two_split (t : Int) :
    (2 : ℚ) ^ t = (2 : ℚ) ^ t.toNat / (2 : ℚ) ^ (-t).toNat := by
  rcases le_total 0 t with h | h
  · have e1 : (-t).toNat = 0 := by omega
    rw [e1, pow_zero, div_one]
    conv_lhs => rw [← Int.toNat_of_nonneg h]
    rw [zpow_natCast]
  · have e1 : t.toNat = 0 := by omega
    have e2 : t = -((-t).toNat : Int) := by omega
    rw [e1, pow_zero]
    conv_lhs => rw [e2]
    rw [zpow_neg, zpow_natCast, one_div]

/-- The power of two with exponent `binExp n d` is at most `n / d`. -/
theorem binExp_le (n d : Nat) (hn : 1 ≤ n) (hd : 1 ≤ d) :
    (2 : ℚ) ^ binExp n d ≤ (n : ℚ) / d := by
  have hdq : (0 : ℚ) < d := by exact_mod_cast hd
  obtain ⟨a1, a2⟩ := ilog2_self n hn
  obtain ⟨b1, b2⟩ := ilog2_self d hd
  unfold binExp
  simp only []
  split_ifs with h
  · rw [zpow_two_split, le_div_iff₀ hdq, div_mul_eq_mul_div, div_le_iff₀ (by positivity)]
    have : ((d * 2 ^ ((ilog2 n n : Int) - (ilog2 d d : Int)).toNat : Nat) : ℚ)
        ≤ ((n * 2 ^ (-((ilog2 n n : Int) - (ilog2 d d : Int))).toNat : Nat) : ℚ) := by
      exact_mod_cast h
    push_cast at this
    linarith
  · have e : ((ilog2 n n : Int) - (ilog2 d d : Int) - 1)
        = (ilog2 n n : Int) - ((ilog2 d d + 1 : Nat) : Int) := by
      push_cast
      ring
    rw [e, zpow_sub₀ (by norm_num), zpow_natCast, zpow_natCast]
    have h1 : ((2 : ℚ) ^ ilog2 n n) ≤ n := by exact_mod_cast a1
    have h2 : (d : ℚ) ≤ 2 ^ (ilog2 d d + 1) := by exact_mod_cast le_of_lt b2
    exact div_le_div₀ (Nat.cast_nonneg n) h1 hdq h2


/-- The integer `roundQuot N D` is within one half of `N / D`. -/
theorem roundQuot_err (N D : Nat) (hD : 0 < D) :
    |(roundQuot N D : ℚ) - (N : ℚ) / D| ≤ 1 / 2 := by
  have hDq : (0 : ℚ) < D := by exact_mod_cast hD
  have hN : (N : ℚ) = D * (N / D : Nat) + (N % D : Nat) := by
    exact_mod_cast (Nat.div_add_mod N D).symm
  have hr : ((N % D : Nat) : ℚ) < D := by exact_mod_cast Nat.mod_lt N hD
  have hr0 : (0 : ℚ) ≤ ((N % D : Nat) : ℚ) := Nat.cast_nonneg _
  have key : ∀ k : ℚ, |k * D - N| ≤ D / 2 → |k - (N : ℚ) / D| ≤ 1 / 2 := by
    intro k hk
    have e : k - (N : ℚ) / D = (k * D - N) / D := by
      field_simp
    rw [e, abs_div, abs_of_pos hDq, div_le_iff₀ hDq]
    linarith
  apply key
  unfold roundQuot
  simp only []
  split_ifs with h1 h2 h3
  · have h1q : (2 : ℚ) * ((N % D : Nat) : ℚ) < D := by exact_mod_cast h1
    rw [abs_le]
    constructor <;> linarith
  · have h2q : (D : ℚ) < 2 * ((N % D : Nat) : ℚ) := by exact_mod_cast h2
    push_cast
    rw [abs_le]
    constructor <;> nlinarith
  · have h1q : (D : ℚ) ≤ 2 * ((N % D : Nat) : ℚ) := by exact_mod_cast not_lt.mp h1
    have h2q : (2 : ℚ) * ((N % D : Nat) : ℚ) ≤ D := by exact_mod_cast not_lt.mp h2
    rw [abs_le]
    constructor <;> linarith
  · have h1q : (D : ℚ) ≤ 2 * ((N % D : Nat) : ℚ) := by exact_mod_cast not_lt.mp h1
    have h2q : (2 : ℚ) * ((N % D : Nat) : ℚ) ≤ D := by exact_mod_cast not_lt.mp h2
    push_cast
    rw [abs_le]
    constructor <;> nlinarith

/-- A result of `roundCore` on a number that is at least `2^emin` has relative error at
most `2^-p`. -/
theorem roundCore_err (p : Nat) (emin emax : Int) (n d k a b : Nat) (hn : 1 ≤ n)
    (hd : 1 ≤ d) (hq : (2 : ℚ) ^ emin ≤ (n : ℚ) / d)
    (h : roundCore p emin emax n d = some (k, a, b)) :
    |((k * 2 ^ a : Nat) : ℚ) / ((2 ^ b : Nat) : ℚ) - (n : ℚ) / d| ≤ (n : ℚ) / d / 2 ^ p := by
  have hdq : (0 : ℚ) < d := by exact_mod_cast hd
  unfold roundCore at h
  simp only [] at h
  split_ifs at h with hov
  simp only [Option.some.injEq, Prod.mk.injEq] at h
  obtain ⟨hk, ha, hb⟩ := h
  generalize ht : max (binExp n d - ((p : Int) - 1)) (emin - ((p : Int) - 1)) = t at hk ha hb
  have hD : 0 < d * 2 ^ t.toNat := Nat.mul_pos hd (by positivity)
  have herr := roundQuot_err (n * 2 ^ (-t).toNat) (d * 2 ^ t.toNat) hD
  rw [hk] at herr
  have h2t : (0 : ℚ) < 2 ^ t := by positivity
  -- the value is `k · 2^t`
  have hval : ((k * 2 ^ a : Nat) : ℚ) / ((2 ^ b : Nat) : ℚ) = k * 2 ^ t := by
    rw [← ha, ← hb, zpow_two_split t]
    push_cast
    ring
  have hquot : ((n * 2 ^ (-t).toNat : Nat) : ℚ) / ((d * 2 ^ t.toNat : Nat) : ℚ)
      = (n : ℚ) / d / 2 ^ t := by
    rw [zpow_two_split t]
    push_cast
    field_simp
  rw [hquot] at herr
  have herr2 : |(k : ℚ) * 2 ^ t - (n : ℚ) / d| ≤ 2 ^ t / 2 := by
    have e : (k : ℚ) * 2 ^ t - (n : ℚ) / d = ((k : ℚ) - (n : ℚ) / d / 2 ^ t) * 2 ^ t := by
      field_simp
      ring
    rw [e, abs_mul, abs_of_pos h2t]
    calc |(k : ℚ) - (n : ℚ) / d / 2 ^ t| * 2 ^ t ≤ 1 / 2 * 2 ^ t :=
          mul_le_mul_of_nonneg_right herr (le_of_lt h2t)
      _ = 2 ^ t / 2 := by ring
  have hbound : (2 : ℚ) ^ t / 2 ≤ (n : ℚ) / d / 2 ^ p := by
    have hsplit : ∀ e : Int, (2 : ℚ) ^ (e - ((p : Int) - 1)) / 2 = 2 ^ e / 2 ^ p := by
      intro e
      rw [zpow_sub₀ (by norm_num), zpow_sub₀ (by norm_num), zpow_natCast, zpow_one]
      field_simp
      ring
    have hp : (0 : ℚ) < 2 ^ p := by positivity
    rcases max_choice (binExp n d - ((p : Int) - 1)) (emin - ((p : Int) - 1)) with hm | hm
    · rw [← ht, hm, hsplit]
      exact div_le_div_of_nonneg_right (binExp_le n d hn hd) (le_of_lt hp)
    · rw [← ht, hm, hsplit]
      exact div_le_div_of_nonneg_right hq (le_of_lt hp)
  rw [hval]
  exact le_trans herr2 hbound

/-- A finite result of `roundBinary` on a number that is at least `2^emin` in absolute
value has relative error at most `2^-p`. -/
theorem roundBinary_err (p : Nat) (emin emax : Int) (q x : ℚ)
    (h : roundBinary p emin emax q = fin x) (hq : (2 : ℚ) ^ emin ≤ |q|) :
    |x - q| ≤ |q| / 2 ^ p := by
  have hq0 : q ≠ 0 := by
    intro h0
    rw [h0, abs_zero] at hq
    exact absurd hq (not_le.mpr (by positivity))
  have hn : 1 ≤ q.num.natAbs := by
    have : q.num ≠ 0 := Rat.num_ne_zero.mpr hq0
    omega
  have hd : 1 ≤ q.den := q.den_pos
  have habs : ((q.num.natAbs : Nat) : ℚ) / (q.den : ℚ) = |q| := by
    have e1 : ((q.num.natAbs : Nat) : ℚ) = |(q.num : ℚ)| := by
      rw [Nat.cast_natAbs, Int.cast_abs]
    have e2 : |q| = |(q.num : ℚ)| / (q.den : ℚ) := by
      conv_lhs => rw [← Rat.num_div_den q]
      rw [abs_div, Nat.abs_cast]
    rw [e1, e2]
  unfold roundBinary at h
  rw [if_neg hq0] at h
  cases hc : roundCore p emin emax q.num.natAbs q.den with
  | none =>
    rw [hc] at h
    simp only [] at h
    split_ifs at h
  | some r =>
    obtain ⟨k, a, b⟩ := r
    rw [hc] at h
    simp only [] at h
    have herr := roundCore_err p emin emax q.num.natAbs q.den k a b hn hd
      (by rw [habs]; exact hq) hc
    rw [habs] at herr
    split_ifs at h with hpos
    · have hx : x = ((k * 2 ^ a : Nat) : ℚ) / ((2 ^ b : Nat) : ℚ) := by
        injection h with h
        exact h.symm
      rw [abs_of_pos hpos] at herr ⊢
      rw [hx]
      exact herr
    · have hx : x = -(((k * 2 ^ a : Nat) : ℚ) / ((2 ^ b : Nat) : ℚ)) := by
        injection h with h
        exact h.symm
      have hneg : q < 0 := lt_of_le_of_ne (not_lt.mp hpos) hq0
      rw [abs_of_neg hneg] at herr ⊢
      rw [hx]
      have e : -(((k * 2 ^ a : Nat) : ℚ) / ((2 ^ b : Nat) : ℚ)) - q
          = -(((k * 2 ^ a : Nat) : ℚ) / ((2 ^ b : Nat) : ℚ) - -q) := by ring
      rw [e, abs_neg]
      exact herr

/-- Rounding to binary32 of a number in the normal range has relative error at most
`2^-24`. -/
theorem roundF32_rel_error (q x : ℚ) (h : roundF32 q = fin x)
    (hq : 1 / 2 ^ 126 ≤ |q|) : |x - q| ≤ |q| / 2 ^ 24 := by
  apply roundBinary_err 24 (-126) 127 q x h
  rw [zpow_neg, ← one_div]
  exact_mod_cast hq


/-- A result of `roundCore` is below `2^(emax + 1)`. -/
theorem roundCore_lt (p : Nat) (emin emax : Int) (n d k a b : Nat)
    (h : roundCore p emin emax n d = some (k, a, b)) :
    ((k * 2 ^ a : Nat) : ℚ) / ((2 ^ b : Nat) : ℚ) < 2 ^ (emax + 1) := by
  unfold roundCore at h
  simp only [] at h
  split_ifs at h with hov
  simp only [Option.some.injEq, Prod.mk.injEq] at h
  obtain ⟨hk, ha, hb⟩ := h
  generalize ht : max (binExp n d - ((p : Int) - 1)) (emin - ((p : Int) - 1)) = t
    at hov hk ha hb
  rw [hk] at hov
  have hval : ((k * 2 ^ a : Nat) : ℚ) / ((2 ^ b : Nat) : ℚ) = k * 2 ^ t := by
    rw [← ha, ← hb, zpow_two_split t]
    push_cast
    ring
  rw [hval]
  have h2t : (0 : ℚ) < 2 ^ t := by positivity
  rcases Nat.eq_zero_or_pos k with h0 | h1
  · rw [h0]
    simp only [Nat.cast_zero, zero_mul]
    positivity
  · obtain ⟨_, k2⟩ := ilog2_self k h1
    have k2q : (k : ℚ) < 2 ^ (ilog2 k k + 1) := by exact_mod_cast k2
    have hle : ((ilog2 k k + 1 : Nat) : Int) + t ≤ emax + 1 := by
      push_cast
      omega
    calc (k : ℚ) * 2 ^ t < 2 ^ (ilog2 k k + 1) * 2 ^ t :=
          mul_lt_mul_of_pos_right k2q h2t
      _ = 2 ^ (((ilog2 k k + 1 : Nat) : Int) + t) := by
          rw [zpow_add₀ (by norm_num), zpow_natCast]
      _ ≤ 2 ^ (emax + 1) := zpow_le_zpow_right₀ (by norm_num) hle

/-- A finite result of `roundBinary` is below `2^(emax + 1)` in absolute value. -/
theorem roundBinary_abs_lt (p : Nat) (emin emax : Int) (q x : ℚ)
    (h : roundBinary p emin emax q = fin x) : |x| < 2 ^ (emax + 1) := by
  unfold roundBinary at h
  by_cases hq0 : q = 0
  · rw [if_pos hq0] at h
    injection h with h
    rw [← h, abs_zero]
    positivity
  · rw [if_neg hq0] at h
    cases hc : roundCore p emin emax q.num.natAbs q.den with
    | none =>
      rw [hc] at h
      simp only [] at h
      split_ifs at h
    | some r =>
      obtain ⟨k, a, b⟩ := r
      rw [hc] at h
      simp only [] at h
      have hlt := roundCore_lt p emin emax q.num.natAbs q.den k a b hc
      have h0 : (0 : ℚ) ≤ ((k * 2 ^ a : Nat) : ℚ) / ((2 ^ b : Nat) : ℚ) := by positivity
      split_ifs at h with hpos
      · injection h with h
        rw [← h, abs_of_nonneg h0]
        exact hlt
      · injection h with h
        rw [← h, abs_neg, abs_of_nonneg h0]
        exact hlt

/-- A finite result of the rounding to binary32 is below `2^128` in absolute value. -/
theorem roundF32_abs_lt (q x : ℚ) (h : roundF32 q = fin x) : |x| < 2 ^ 128 := by
  have := roundBinary_abs_lt 24 (-126) 127 q x h
  norm_num at this
  exact_mod_cast this

/-- Rounding to binary32 of zero, or of a number in the normal range, has relative error at
most `2^-24`. -/
theorem roundF32_rel_error_or (q x : ℚ) (h : roundF32 q = fin x)
    (hq : q = 0 ∨ 1 / 2 ^ 126 ≤ |q|) : |x - q| ≤ 1 / 2 ^ 24 * |q| := by
  rcases hq with h0 | hn
  · rw [h0] at h ⊢
    rw [roundF32_zero] at h
    injection h with h
    rw [← h]
    simp
  · have := roundF32_rel_error q x h hn
    calc |x - q| ≤ |q| / 2 ^ 24 := this
      _ = 1 / 2 ^ 24 * |q| := by ring

/-- A finite rounded result comes from a finite exact result. -/
theorem rounded_fin_inv {β : Type} {r : β → CFloat β} {y : CFloat β} {k : β}
    (h : CFloat.rounded r y = fin k) : ∃ c, y = fin c ∧ r c = fin k := by
  cases y with
  | nan => exact absurd h (by simp [CFloat.rounded])
  | pinf => exact absurd h (by simp [CFloat.rounded])
  | ninf => exact absurd h (by simp [CFloat.rounded])
  | fin c => exact ⟨c, rfl, h⟩

/-- The local `k_target` of the rounded computation is the rounding of an exact result. -/
theorem rvars_k_target_rounded (r32 r64 : α → CFloat α) (L : Libm α)
    (x_ : Fin 12 → CFloat α) :
    ∃ y, (GetControl.roundedVars r32 r64 L x_).k_target = CFloat.rounded r32 y :=
  ⟨_, rfl⟩

/-- A value that `clip` maps strictly inside the interval is left unchanged. -/
theorem clip_eq_fin_inside {q : CFloat α} {s : α}
    (h : clip q (fin (-1)) (fin 1) = fin s) (h1 : -1 < s) (h2 : s < 1) : q = fin s := by
  unfold clip at h
  split_ifs at h with c1 c2
  · injection h with h
    exact absurd h (ne_of_lt h1)
  · injection h with h
    exact absurd h (ne_of_gt h2)
  · exact h

@[simp] theorem sampleStateExp_v (v kappa m a b : ℚ) :
    sampleStateExp v kappa m a b 0 = fin v := rfl

@[simp] theorem sampleStateExp_y_e (v kappa m a b : ℚ) :
    sampleStateExp v kappa m a b 2 = fin 0 := rfl

@[simp] theorem sampleStateExp_psi_e (v kappa m a b : ℚ) :
    sampleStateExp v kappa m a b 3 = fin 0 := rfl

@[simp] theorem sampleStateExp_kappa (v kappa m a b : ℚ) :
    sampleStateExp v kappa m a b 4 = fin kappa := rfl

@[simp] theorem sampleStateExp_ml_1 (v kappa m a b : ℚ) :
    sampleStateExp v kappa m a b 5 = fin m := rfl

@[simp] theorem sampleStateExp_ml_2 (v kappa m a b : ℚ) :
    sampleStateExp v kappa m a b 6 = fin 0 := rfl

@[simp] theorem sampleStateExp_ml_3 (v kappa m a b : ℚ) :
    sampleStateExp v kappa m a b 7 = fin 0 := rfl

@[simp] theorem sampleStateExp_ml_4 (v kappa m a b : ℚ) :
    sampleStateExp v kappa m a b 8 = fin 0 := rfl

@[simp] theorem sampleStateExp_srv_a (v kappa m a b : ℚ) :
    sampleStateExp v kappa m a b 9 = fin a := rfl

@[simp] theorem sampleStateExp_srv_b (v kappa m a b : ℚ) :
    sampleStateExp v kappa m a b 10 = fin b := rfl

@[simp] theorem sampleState_v (v kappa a b : ℚ) : sampleState v kappa a b 0 = fin v := rfl

@[simp] theorem sampleState_y_e (v kappa a b : ℚ) : sampleState v kappa a b 2 = fin 0 := rfl

@[simp] theorem sampleState_psi_e (v kappa a b : ℚ) : sampleState v kappa a b 3 = fin 0 := rfl

@[simp] theorem sampleState_kappa (v kappa a b : ℚ) :
    sampleState v kappa a b 4 = fin kappa := rfl

@[simp] theorem sampleState_ml_1 (v kappa a b : ℚ) : sampleState v kappa a b 5 = fin 0 := rfl

@[simp] theorem sampleState_ml_2 (v kappa a b : ℚ) : sampleState v kappa a b 6 = fin 0 := rfl

@[simp] theorem sampleState_ml_3 (v kappa a b : ℚ) : sampleState v kappa a b 7 = fin 0 := rfl

@[simp] theorem sampleState_ml_4 (v kappa a b : ℚ) : sampleState v kappa a b 8 = fin 0 := rfl

@[simp] theorem sampleState_srv_a (v kappa a b : ℚ) : sampleState v kappa a b 9 = fin a := rfl

@[simp] theorem sampleState_srv_b (v kappa a b : ℚ) : sampleState v kappa a b 10 = fin b := rfl

@[simp] theorem enc4_zero (a b c d : Nat) : enc4 a b c d 0 = a := rfl

@[simp] theorem enc4_one (a b c d : Nat) : enc4 a b c d 1 = b := rfl

@[simp] theorem enc4_two (a b c d : Nat) : enc4 a b c d 2 = c := rfl

@[simp] theorem enc4_three (a b c d : Nat) : enc4 a b c d 3 = d := rfl

/-! ### Binary32 evaluation at the sample states -/

/-- Rounding of `-(19713229 / 8388608)` to binary32. -/
theorem roundF32_neg_19713229_8388608 : roundF32 (-(19713229 / 8388608)) = fin (-(4928307 / 2097152)) := by
  unfold roundF32
  rw [roundBinary_eval 19713229 8388608 9856614 0 22 (by norm_num) (by norm_num) (by norm_num)
    (by decide)]
  norm_num

/-- Rounding of `-(82683272194835 / 35184372088832)` to binary32. -/
theorem roundF32_neg_82683272194835_35184372088832 : roundF32 (-(82683272194835 / 35184372088832)) = fin (-(4928307 / 2097152)) := by
  unfold roundF32
  rw [roundBinary_eval 82683272194835 35184372088832 9856614 0 22 (by norm_num) (by norm_num) (by norm_num)
    (by decide)]
  norm_num

/-- Rounding of `-2` to binary32. -/
theorem roundF32_neg_2_1 : roundF32 (-2) = fin (-2) := by
  unfold roundF32
  rw [roundBinary_eval 2 1 8388608 0 22 (by norm_num) (by norm_num) (by norm_num)
    (by decide)]
  norm_num

/-- Rounding of `-(3628073 / 2097152)` to binary32. -/
theorem roundF32_neg_3628073_2097152 : roundF32 (-(3628073 / 2097152)) = fin (-(3628073 / 2097152)) := by
  unfold roundF32
  rw [roundBinary_eval 3628073 2097152 14512292 0 23 (by norm_num) (by norm_num) (by norm_num)
    (by decide)]
  norm_num

/-- Rounding of `-(173 / 100)` to binary32. -/
theorem roundF32_neg_173_100 : roundF32 (-(173 / 100)) = fin (-(3628073 / 2097152)) := by
  unfold roundF32
  rw [roundBinary_eval 173 100 14512292 0 23 (by norm_num) (by norm_num) (by norm_num)
    (by decide)]
  norm_num

/-- Rounding of `-(14512291 / 8388608)` to binary32. -/
theorem roundF32_neg_14512291_8388608 : roundF32 (-(14512291 / 8388608)) = fin (-(14512291 / 8388608)) := by
  unfold roundF32
  rw [roundBinary_eval 14512291 8388608 14512291 0 23 (by norm_num) (by norm_num) (by norm_num)
    (by decide)]
  norm_num

/-- Rounding of `-(4928307 / 9877586)` to binary32. -/
theorem roundF32_neg_4928307_9877586 : roundF32 (-(4928307 / 9877586)) = fin (-(16741595 / 33554432)) := by
  unfold roundF32
  rw [roundBinary_eval 4928307 9877586 16741595 0 25 (by norm_num) (by norm_num) (by norm_num)
    (by decide)]
  norm_num

/-- Rounding of `1 / 3` to binary32. -/
theorem roundF32_1_3 : roundF32 (1 / 3) = fin (11184811 / 33554432) := by
  unfold roundF32
  rw [roundBinary_eval 1 3 11184811 0 25 (by norm_num) (by norm_num) (by norm_num)
    (by decide)]
  norm_num

/-- Rounding of `31 / 50` to binary32. -/
theorem roundF32_31_50 : roundF32 (31 / 50) = fin (5200937 / 8388608) := by
  unfold roundF32
  rw [roundBinary_eval 31 50 10401874 0 24 (by norm_num) (by norm_num) (by norm_num)
    (by decide)]
  norm_num

/-- Rounding of `5200937 / 8388608` to binary32. -/
theorem roundF32_5200937_8388608 : roundF32 (5200937 / 8388608) = fin (5200937 / 8388608) := by
  unfold roundF32
  rw [roundBinary_eval 5200937 8388608 10401874 0 24 (by norm_num) (by norm_num) (by norm_num)
    (by decide)]
  norm_num

/-- Rounding of `71428573 / 100000000` to binary32. -/
theorem roundF32_71428573_100000000 : roundF32 (71428573 / 100000000) = fin (5991863 / 8388608) := by
  unfold roundF32
  rw [roundBinary_eval 71428573 100000000 11983726 0 24 (by norm_num) (by norm_num) (by norm_num)
    (by decide)]
  norm_num

/-- Rounding of `5991863 / 8388608` to binary32. -/
theorem roundF32_5991863_8388608 : roundF32 (5991863 / 8388608) = fin (5991863 / 8388608) := by
  unfold roundF32
  rw [roundBinary_eval 5991863 8388608 11983726 0 24 (by norm_num) (by norm_num) (by norm_num)
    (by decide)]
  norm_num

/-- Rounding of `2831155 / 3145728` to binary32. -/
theorem roundF32_2831155_3145728 : roundF32 (2831155 / 3145728) = fin (15099493 / 16777216) := by
  unfold roundF32
  rw [roundBinary_eval 2831155 3145728 15099493 0 24 (by norm_num) (by norm_num) (by norm_num)
    (by decide)]
  norm_num

/-- Rounding of `7549747 / 8388608` to binary32. -/
theorem roundF32_7549747_8388608 : roundF32 (7549747 / 8388608) = fin (7549747 / 8388608) := by
  unfold roundF32
  rw [roundBinary_eval 7549747 8388608 15099494 0 24 (by norm_num) (by norm_num) (by norm_num)
    (by decide)]
  norm_num

/-- Rounding of `9 / 10` to binary32. -/
theorem roundF32_9_10 : roundF32 (9 / 10) = fin (7549747 / 8388608) := by
  unfold roundF32
  rw [roundBinary_eval 9 10 15099494 0 24 (by norm_num) (by norm_num) (by norm_num)
    (by decide)]
  norm_num

/-- Rounding of `1` to binary32. -/
theorem roundF32_1_1 : roundF32 (1) = fin (1) := by
  unfold roundF32
  rw [roundBinary_eval 1 1 8388608 0 23 (by norm_num) (by norm_num) (by norm_num)
    (by decide)]
  norm_num

/-- Rounding of `16777217 / 16777216` to binary32. -/
theorem roundF32_16777217_16777216 : roundF32 (16777217 / 16777216) = fin (1) := by
  unfold roundF32
  rw [roundBinary_eval 16777217 16777216 8388608 0 23 (by norm_num) (by norm_num) (by norm_num)
    (by decide)]
  norm_num

/-- Rounding of `16777219 / 16777216` to binary32. -/
theorem roundF32_16777219_16777216 : roundF32 (16777219 / 16777216) = fin (4194305 / 4194304) := by
  unfold roundF32
  rw [roundBinary_eval 16777219 16777216 8388610 0 23 (by norm_num) (by norm_num) (by norm_num)
    (by decide)]
  norm_num

/-- Rounding of `4843165 / 4194304` to binary32. -/
theorem roundF32_4843165_4194304 : roundF32 (4843165 / 4194304) = fin (4843165 / 4194304) := by
  unfold roundF32
  rw [roundBinary_eval 4843165 4194304 9686330 0 23 (by norm_num) (by norm_num) (by norm_num)
    (by decide)]
  norm_num

/-- Rounding of `4 / 3` to binary32. -/
theorem roundF32_4_3 : roundF32 (4 / 3) = fin (11184811 / 8388608) := by
  unfold roundF32
  rw [roundBinary_eval 4 3 11184811 0 23 (by norm_num) (by norm_num) (by norm_num)
    (by decide)]
  norm_num

/-- Rounding of `12755481 / 8388608` to binary32. -/
theorem roundF32_12755481_8388608 : roundF32 (12755481 / 8388608) = fin (12755481 / 8388608) := by
  unfold roundF32
  rw [roundBinary_eval 12755481 8388608 12755481 0 23 (by norm_num) (by norm_num) (by norm_num)
    (by decide)]
  norm_num

/-- Rounding of `2` to binary32. -/
theorem roundF32_2_1 : roundF32 (2) = fin (2) := by
  unfold roundF32
  rw [roundBinary_eval 2 1 8388608 0 22 (by norm_num) (by norm_num) (by norm_num)
    (by decide)]
  norm_num

/-- Rounding of `8388608 / 3628073` to binary32. -/
theorem roundF32_8388608_3628073 : roundF32 (8388608 / 3628073) = fin (9697813 / 4194304) := by
  unfold roundF32
  rw [roundBinary_eval 8388608 3628073 9697813 0 22 (by norm_num) (by norm_num) (by norm_num)
    (by decide)]
  norm_num

/-- Rounding of `9925535 / 4194304` to binary32. -/
theorem roundF32_9925535_4194304 : roundF32 (9925535 / 4194304) = fin (9925535 / 4194304) := by
  unfold roundF32
  rw [roundBinary_eval 9925535 4194304 9925535 0 22 (by norm_num) (by norm_num) (by norm_num)
    (by decide)]
  norm_num

/-- Rounding of `22649241 / 8388608` to binary32. -/
theorem roundF32_22649241_8388608 : roundF32 (22649241 / 8388608) = fin (2831155 / 1048576) := by
  unfold roundF32
  rw [roundBinary_eval 22649241 8388608 11324620 0 22 (by norm_num) (by norm_num) (by norm_num)
    (by decide)]
  norm_num

/-- Rounding of `3` to binary32. -/
theorem roundF32_3_1 : roundF32 (3) = fin (3) := by
  unfold roundF32
  rw [roundBinary_eval 3 1 12582912 0 22 (by norm_num) (by norm_num) (by norm_num)
    (by decide)]
  norm_num

/-- Rounding of `471 / 100` to binary32. -/
theorem roundF32_471_100 : roundF32 (471 / 100) = fin (4938793 / 1048576) := by
  unfold roundF32
  rw [roundBinary_eval 471 100 9877586 0 21 (by norm_num) (by norm_num) (by norm_num)
    (by decide)]
  norm_num

/-- Rounding of `4938793 / 1048576` to binary32. -/
theorem roundF32_4938793_1048576 : roundF32 (4938793 / 1048576) = fin (4938793 / 1048576) := by
  unfold roundF32
  rw [roundBinary_eval 4938793 1048576 9877586 0 21 (by norm_num) (by norm_num) (by norm_num)
    (by decide)]
  norm_num

/-- Rounding of `33554432 / 5991863` to binary32. -/
theorem roundF32_33554432_5991863 : roundF32 (33554432 / 5991863) = fin (11744051 / 2097152) := by
  unfold roundF32
  rw [roundBinary_eval 33554432 5991863 11744051 0 21 (by norm_num) (by norm_num) (by norm_num)
    (by decide)]
  norm_num

/-- Rounding of `5003159 / 524288` to binary32. -/
theorem roundF32_5003159_524288 : roundF32 (5003159 / 524288) = fin (5003159 / 524288) := by
  unfold roundF32
  rw [roundBinary_eval 5003159 524288 10006318 0 20 (by norm_num) (by norm_num) (by norm_num)
    (by decide)]
  norm_num

/-- Rounding of `5003159 / 262144` to binary32. -/
theorem roundF32_5003159_262144 : roundF32 (5003159 / 262144) = fin (5003159 / 262144) := by
  unfold roundF32
  rw [roundBinary_eval 5003159 262144 10006318 0 19 (by norm_num) (by norm_num) (by norm_num)
    (by decide)]
  norm_num

/-- Rounding of `5265303 / 262144` to binary32. -/
theorem roundF32_5265303_262144 : roundF32 (5265303 / 262144) = fin (5265303 / 262144) := by
  unfold roundF32
  rw [roundBinary_eval 5265303 262144 10530606 0 19 (by norm_num) (by norm_num) (by norm_num)
    (by decide)]
  norm_num

/-- Rounding of `1` to binary64. -/
theorem roundF64_1_1 : roundF64 (1) = fin (1) := by
  unfold roundF64
  rw [roundBinary_eval 1 1 4503599627370496 0 52 (by norm_num) (by norm_num) (by norm_num)
    (by decide)]
  norm_num

/-- Rounding of `-40` to binary32. -/
theorem roundF32_neg_40_1 : roundF32 (-40) = fin (-40) := by
  unfold roundF32
  rw [roundBinary_eval 40 1 10485760 0 18 (by norm_num) (by norm_num) (by norm_num)
    (by decide)]
  norm_num

/-- Rounding of `4` to binary32. -/
theorem roundF32_4_1 : roundF32 (4) = fin (4) := by
  unfold roundF32
  rw [roundBinary_eval 4 1 8388608 0 21 (by norm_num) (by norm_num) (by norm_num)
    (by decide)]
  norm_num

/-- The value of `k_target` in binary32 arithmetic at `reverseState`. -/
theorem reverseState_k_target :
    (GetControl.roundedVars roundF32 roundF64 f32Libm reverseState).k_target = fin 4 := by
  norm_num [GetControl.roundedVars, reverseState, rounded_fin, f32Libm, clip, CFloat.exp,
    CFloat.cos, CFloat.sin, LANE_OFFSET, LANEOFFSET_PER_K, kpy, kvy, fin_div_fin, infTimes,
    roundF32_zero, roundF32_1_1, roundF32_2_1, roundF32_neg_2_1, roundF32_4_1, roundF64_1_1]

/-- The value of `steering_out` in binary32 arithmetic at `reverseState`. -/
theorem reverseState_steering_out :
    (GetControl.roundedVars roundF32 roundF64 f32Libm reverseState).steering_out = fin 1 := by
  rw [rvars_steering_out, rvars_steering_raw, reverseState_k_target]
  norm_num [reverseState, rounded_fin, fin_div_fin, clip, roundF32_4_1]

/-- The value of `vmax` in binary32 arithmetic at `reverseState`. -/
theorem reverseState_vmax :
    (GetControl.roundedVars roundF32 roundF64 f32Libm reverseState).vmax = fin (-40) := by
  rw [rvars_vmax, reverseState_steering_out, rvars_vmax_init, rvars_sat_bound,
    rvars_w_target, rvars_k_limit, reverseState_steering_out, reverseState_k_target]
  norm_num [reverseState, rounded_fin, f32Libm, CFloat.exp, CFloat.fmin, CFloat.eq,
    SPEED_LIMIT, fin_div_fin, infTimes, roundF32_zero, roundF32_1_1, roundF32_2_1,
    roundF32_neg_40_1]

/-- The value of `v_target` in binary32 arithmetic at `reverseState`. -/
theorem reverseState_v_target :
    (GetControl.roundedVars roundF32 roundF64 f32Libm reverseState).v_target
      = fin (-40) := by
  rw [rvars_v_target, reverseState_vmax, rvars_traction_speed, reverseState_k_target]
  norm_num [rounded_fin, f32Libm, TRACTION_LIMIT, CFloat.fabs, CFloat.sqrtf, CFloat.fmin,
    fin_div_fin, roundF32_1_1]

/-- The value of `k_target` in binary32 arithmetic at `saturatedState`. -/
theorem saturatedState_k_target :
    (GetControl.roundedVars roundF32 roundF64 f32Libm saturatedState).k_target = fin 3 := by
  norm_num [GetControl.roundedVars, saturatedState, rounded_fin, f32Libm, clip, CFloat.exp,
    CFloat.cos, CFloat.sin, LANE_OFFSET, LANEOFFSET_PER_K, kpy, kvy, fin_div_fin, infTimes,
    roundF32_zero, roundF32_1_1, roundF32_2_1, roundF32_neg_2_1, roundF32_3_1, roundF64_1_1]

/-- The value of `vmax_init` in binary32 arithmetic at `saturatedState`. -/
theorem saturatedState_vmax_init :
    (GetControl.roundedVars roundF32 roundF64 f32Libm saturatedState).vmax_init = fin 5 := by
  rw [rvars_vmax_init]
  norm_num [saturatedState, rounded_fin, f32Libm, CFloat.exp, CFloat.fmin, SPEED_LIMIT,
    fin_div_fin, roundF32_1_1, roundF32_2_1, roundF32_5265303_262144, roundF32_5003159_262144,
    roundF32_5003159_524288]

/-- The value of `steering_raw` in binary32 arithmetic at `saturatedState`. -/
theorem saturatedState_steering_raw :
    (GetControl.roundedVars roundF32 roundF64 f32Libm saturatedState).steering_raw = fin 1 := by
  rw [rvars_steering_raw, saturatedState_k_target]
  norm_num [saturatedState, rounded_fin, fin_div_fin, roundF32_3_1, roundF32_1_1]

/-- The value of `steering_out` in binary32 arithmetic at `saturatedState`. -/
theorem saturatedState_steering_out :
    (GetControl.roundedVars roundF32 roundF64 f32Libm saturatedState).steering_out = fin 1 := by
  rw [rvars_steering_out, saturatedState_steering_raw]
  norm_num [clip]

/-- The value of `w_target` in binary32 arithmetic at `saturatedState`. -/
theorem saturatedState_w_target :
    (GetControl.roundedVars roundF32 roundF64 f32Libm saturatedState).w_target
      = fin (2831155 / 1048576) := by
  rw [rvars_w_target, saturatedState_k_target]
  norm_num [saturatedState, rounded_fin, roundF32_22649241_8388608]

/-- The value of `k_limit` in binary32 arithmetic at `saturatedState`. -/
theorem saturatedState_k_limit :
    (GetControl.roundedVars roundF32 roundF64 f32Libm saturatedState).k_limit = fin 3 := by
  rw [rvars_k_limit, saturatedState_steering_out]
  norm_num [saturatedState, rounded_fin, roundF32_3_1]

/-- The value of `sat_bound` in binary32 arithmetic at `saturatedState`. -/
theorem saturatedState_sat_bound :
    (GetControl.roundedVars roundF32 roundF64 f32Libm saturatedState).sat_bound
      = fin (15099493 / 16777216) := by
  rw [rvars_sat_bound, saturatedState_w_target, saturatedState_k_limit]
  norm_num [rounded_fin, fin_div_fin, roundF32_2831155_3145728]

/-- The value of `vmax` in binary32 arithmetic at `saturatedState`. -/
theorem saturatedState_vmax :
    (GetControl.roundedVars roundF32 roundF64 f32Libm saturatedState).vmax
      = fin (15099493 / 16777216) := by
  rw [rvars_vmax, saturatedState_steering_out, saturatedState_vmax_init,
    saturatedState_sat_bound]
  norm_num [CFloat.eq, CFloat.fmin]

/-- The value of `k_target` in binary32 arithmetic at `calibratedState`. -/
theorem calibratedState_k_target :
    (GetControl.roundedVars roundF32 roundF64 f32Libm calibratedState).k_target
      = fin (-(3628073 / 2097152)) := by
  norm_num [GetControl.roundedVars, calibratedState, rounded_fin, f32Libm, clip, CFloat.exp,
    CFloat.cos, CFloat.sin, LANE_OFFSET, LANEOFFSET_PER_K, kpy, kvy, fin_div_fin, infTimes,
    roundF32_zero, roundF32_1_1, roundF32_2_1, roundF32_neg_2_1, roundF32_neg_3628073_2097152,
    roundF64_1_1]

/-- The value of `steering_raw` in binary32 arithmetic at `calibratedState`. -/
theorem calibratedState_steering_raw :
    (GetControl.roundedVars roundF32 roundF64 f32Libm calibratedState).steering_raw
      = fin (-(16741595 / 33554432)) := by
  rw [rvars_steering_raw, calibratedState_k_target]
  norm_num [calibratedState, rounded_fin, fin_div_fin, roundF32_neg_19713229_8388608,
    roundF32_neg_4928307_9877586]

/-- The value of `steering_out` in binary32 arithmetic at `calibratedState`. -/
theorem calibratedState_steering_out :
    (GetControl.roundedVars roundF32 roundF64 f32Libm calibratedState).steering_out
      = fin (-(16741595 / 33554432)) := by
  rw [rvars_steering_out, calibratedState_steering_raw]
  norm_num [clip]

/-- The value of `k_limit` in binary32 arithmetic at `calibratedState`. -/
theorem calibratedState_k_limit :
    (GetControl.roundedVars roundF32 roundF64 f32Libm calibratedState).k_limit
      = fin (-(14512291 / 8388608)) := by
  rw [rvars_k_limit, calibratedState_steering_out]
  norm_num [calibratedState, rounded_fin, roundF32_neg_82683272194835_35184372088832,
    roundF32_neg_14512291_8388608]

/-- The value of `k_target` in binary32 arithmetic at `curveState`. -/
theorem curveState_k_target :
    (GetControl.roundedVars roundF32 roundF64 f32Libm curveState).k_target
      = fin (5991863 / 8388608) := by
  norm_num [GetControl.roundedVars, curveState, rounded_fin, f32Libm, clip, CFloat.exp,
    CFloat.cos, CFloat.sin, LANE_OFFSET, LANEOFFSET_PER_K, kpy, kvy, fin_div_fin, infTimes,
    roundF32_zero, roundF32_1_1, roundF32_2_1, roundF32_neg_2_1, roundF32_5991863_8388608,
    roundF64_1_1]

/-- The value of `vmax_init` in binary32 arithmetic at `curveState`. -/
theorem curveState_vmax_init :
    (GetControl.roundedVars roundF32 roundF64 f32Libm curveState).vmax_init = fin 5 := by
  rw [rvars_vmax_init]
  norm_num [curveState, rounded_fin, f32Libm, CFloat.exp, CFloat.fmin, SPEED_LIMIT,
    fin_div_fin, roundF32_1_1, roundF32_2_1, roundF32_5265303_262144, roundF32_5003159_262144,
    roundF32_5003159_524288]

/-- The value of `steering_out` in binary32 arithmetic at `curveState`. -/
theorem curveState_steering_out :
    (GetControl.roundedVars roundF32 roundF64 f32Libm curveState).steering_out
      = fin (5991863 / 8388608) := by
  rw [rvars_steering_out, rvars_steering_raw, curveState_k_target]
  norm_num [curveState, rounded_fin, fin_div_fin, clip, roundF32_5991863_8388608]

/-- The value of `vmax` in binary32 arithmetic at `curveState`. -/
theorem curveState_vmax :
    (GetControl.roundedVars roundF32 roundF64 f32Libm curveState).vmax = fin 5 := by
  rw [rvars_vmax, curveState_steering_out, curveState_vmax_init]
  norm_num [CFloat.eq]

/-- The value of `traction_speed` in binary32 arithmetic at `curveState`. -/
theorem curveState_traction_speed :
    (GetControl.roundedVars roundF32 roundF64 f32Libm curveState).traction_speed
      = fin (9925535 / 4194304) := by
  have habs : |(5991863 / 8388608 : ℚ)| = 5991863 / 8388608 := abs_of_pos (by norm_num)
  rw [rvars_traction_speed, curveState_k_target]
  norm_num [habs, rounded_fin, f32Libm, TRACTION_LIMIT, CFloat.fabs, CFloat.sqrtf, fin_div_fin,
    roundF32_33554432_5991863, roundF32_9925535_4194304]

/-- The value of `v_target` in binary32 arithmetic at `curveState`. -/
theorem curveState_v_target :
    (GetControl.roundedVars roundF32 roundF64 f32Libm curveState).v_target
      = fin (9925535 / 4194304) := by
  rw [rvars_v_target, curveState_vmax, curveState_traction_speed]
  norm_num [CFloat.fmin]

/-- The values `f32Libm.sqrt` takes at 5.5999999, 1.3333334 and 2.3121388 are the binary32
numbers nearest to the square roots: the two midpoints to the neighbours, half a unit in the
last place away (`2^-23` for a root in `[2, 4)`, `2^-24` in `[1, 2)`), square to less and to
more than the argument. -/
theorem f32Libm_sqrt_nearest :
    ((f32Libm.sqrt (11744051 / 2097152) - 1 / 8388608) ^ 2 < 11744051 / 2097152 ∧
      (11744051 / 2097152 : ℚ) < (f32Libm.sqrt (11744051 / 2097152) + 1 / 8388608) ^ 2) ∧
    ((f32Libm.sqrt (11184811 / 8388608) - 1 / 16777216) ^ 2 < 11184811 / 8388608 ∧
      (11184811 / 8388608 : ℚ) < (f32Libm.sqrt (11184811 / 8388608) + 1 / 16777216) ^ 2) ∧
    ((f32Libm.sqrt (9697813 / 4194304) - 1 / 16777216) ^ 2 < 9697813 / 4194304 ∧
      (9697813 / 4194304 : ℚ) < (f32Libm.sqrt (9697813 / 4194304) + 1 / 16777216) ^ 2) := by
  norm_num [f32Libm]

/-- The value `f32Libm.exp` takes at 3 is within half a unit in the last place, `2^-20`, of
the exponential of 3. -/
theorem f32Libm_exp_nearest :
    |Real.exp 3 - ((f32Libm.exp 3 : ℚ) : ℝ)| < 1 / 1048576 := by
  have h1 := Real.exp_one_gt_d9
  have h2 := Real.exp_one_lt_d9
  have e : Real.exp 3 = Real.exp 1 ^ 3 := by
    rw [← Real.exp_nat_mul]
    norm_num
  have hv : ((f32Libm.exp 3 : ℚ) : ℝ) = 5265303 / 262144 := by
    norm_num [f32Libm]
  rw [hv, e, abs_lt]
  have hpos : (0 : ℝ) < Real.exp 1 := Real.exp_pos 1
  constructor
  · have : (2.7182818283 : ℝ) ^ 3 ≤ Real.exp 1 ^ 3 :=
      pow_le_pow_left₀ (by norm_num) (le_of_lt h1) 3
    have c : (5265303 / 262144 : ℝ) - 1 / 1048576 < (2.7182818283 : ℝ) ^ 3 := by norm_num
    linarith
  · have : Real.exp 1 ^ 3 ≤ (2.7182818286 : ℝ) ^ 3 :=
      pow_le_pow_left₀ (le_of_lt hpos) (le_of_lt h2) 3
    have c : (2.7182818286 : ℝ) ^ 3 < (5265303 / 262144 : ℝ) + 1 / 1048576 := by norm_num
    linarith

end Lemmas

/-! ## The claims -/

section Claims

variable {α : Type} [LinearOrderedField α]

/-- C1. For every state vector and every `dt`, if the two quotients `GetControl` clips are
defined (not NaN: the steering quotient `(k_target - srv_b) / srv_a` and the duty-cycle
quotient of `MotorControl`), then `GetControl` writes a finite throttle in `[-1, 0.8]` and a
finite steering command in `[-1, 1]`. -/
theorem GetControl_outputs_in_range (L : Libm α) (x_ : Fin 12 → CFloat α) (dt : CFloat α)
    (hsteer : ((GetControl.vars L x_ dt).k_target - x_ 10) / x_ 9 ≠ nan)
    (hmotor : ((GetControl.vars L x_ dt).a_target
          + CFloat.exp L (x_ 7) * x_ 0 + CFloat.exp L (x_ 8)) /
        ((if -CFloat.exp L (x_ 7) * x_ 0 - CFloat.exp L (x_ 8)
              < (GetControl.vars L x_ dt).a_target then (fin 1 : CFloat α) else fin 0)
            * CFloat.exp L (x_ 5) - CFloat.exp L (x_ 6) * x_ 0) ≠ nan) :
    ∃ throttle steering : α,
      GetControl L x_ dt = (true, fin throttle, fin steering) ∧
      -1 ≤ throttle ∧ throttle ≤ 0.8 ∧ -1 ≤ steering ∧ steering ≤ 1 := by
  obtain ⟨m, hm, hm0, hm1⟩ := MotorControl_fin_mem _ _ _ _ _ _ hmotor
  have hne : (fin m : CFloat α) ≠ nan := by simp
  obtain ⟨t, ht, ht0, ht1⟩ :=
    clip_fin_mem hne (show (-1 : α) ≤ 0.8 by norm_num)
  obtain ⟨s, hs, hs0, hs1⟩ := clip_fin_mem hsteer (show (-1 : α) ≤ 1 by norm_num)
  refine ⟨t, s, ?_, ht0, ht1, hs0, hs1⟩
  have e1 : (GetControl.vars L x_ dt).throttle_out = fin t := by
    rw [← ht, ← hm]
    rfl
  have e2 : (GetControl.vars L x_ dt).steering_out = fin s := by
    rw [← hs]
    rfl
  simp only [GetControl, e1, e2]

/-- Witness of C1: at the state with `srv_a = 1` and all other components zero, with
`dt = 1`, both quotients are defined and the outputs are in range. -/
theorem GetControl_outputs_in_range_witness :
    ∃ throttle steering : ℚ,
      GetControl stubLibm restState (fin 1) = (true, fin throttle, fin steering) ∧
      -1 ≤ throttle ∧ throttle ≤ 0.8 ∧ -1 ≤ steering ∧ steering ≤ 1 := by
  have e0 : restState 0 = fin 0 := rfl
  have e2 : restState 2 = fin 0 := rfl
  have e3 : restState 3 = fin 0 := rfl
  have e4 : restState 4 = fin 0 := rfl
  have e5 : restState 5 = fin 0 := rfl
  have e6 : restState 6 = fin 0 := rfl
  have e7 : restState 7 = fin 0 := rfl
  have e8 : restState 8 = fin 0 := rfl
  have e9 : restState 9 = fin 1 := rfl
  have e10 : restState 10 = fin 0 := rfl
  apply GetControl_outputs_in_range
  · norm_num [GetControl.vars, e0, e2, e3, e4, e5, e6, e7, e8, e9, e10, stubLibm,
      MotorControl, clip, CFloat.exp, CFloat.cos, CFloat.sin, CFloat.fmin, CFloat.sqrtf,
      CFloat.fabs, SPEED_LIMIT, LANE_OFFSET, LANEOFFSET_PER_K, kpy, kvy, TRACTION_LIMIT,
      BRAKE_LIMIT, ACCEL_LIMIT, MAX_THROTTLE, fin_div_fin, infTimes, fin_ne_nan]
  · norm_num [GetControl.vars, e0, e2, e3, e4, e5, e6, e7, e8, e9, e10, stubLibm,
      MotorControl, clip, CFloat.exp, CFloat.cos, CFloat.sin, CFloat.fmin, CFloat.sqrtf,
      CFloat.fabs, SPEED_LIMIT, LANE_OFFSET, LANEOFFSET_PER_K, kpy, kvy, TRACTION_LIMIT,
      BRAKE_LIMIT, ACCEL_LIMIT, MAX_THROTTLE, fin_div_fin, infTimes, fin_ne_nan]

/-- C2 (as amended). For every state vector whose first component is NaN or infinite at
entry to `UpdateState`, one tick resets the estimator: the estimator afterwards is
`Reset` of the estimator before, and the only collaborator call of the tick is that
`Reset` (no prediction, no fusion). -/
theorem UpdateState_diverged_first_component {P R Y : Type} (E : Collab α P R Y) (M_PI : α)
    (yuv : Y) (yuvlen : Nat) (throttle_in steering_in : CFloat α)
    (accel gyro : Fin 3 → CFloat α) (servo_pos : Nat) (wheel_encoders : Fin 4 → Nat)
    (dt : CFloat α) (d : DriveController α P R Y)
    (h : isnan (d.ekf.x_ 0) = true ∨ isinf (d.ekf.x_ 0) = true) :
    (UpdateState E M_PI yuv yuvlen throttle_in steering_in accel gyro servo_pos
        wheel_encoders dt d).ekf = E.Reset d.ekf ∧
    (UpdateState E M_PI yuv yuvlen throttle_in steering_in accel gyro servo_pos
        wheel_encoders dt d).calls = d.calls ++ [Call.Reset] := by
  have hc : (isinf (d.ekf.x_ 0) || isnan (d.ekf.x_ 0)) = true := by
    rcases h with h | h <;> simp [h]
  unfold UpdateState
  simp only [hc, if_true]
  exact ⟨rfl, rfl⟩

/-- Witness of C2 (as amended): a controller whose state vector starts with NaN. -/
theorem UpdateState_diverged_first_component_witness :
    (UpdateState stubCollab M_PI_double () 460800 (fin 0) (fin 0) zero3 zero3 0
        (enc4 1 2 3 4) (fin 1) (stubController (restStateWith 0 nan) false (enc4 0 0 0 0))).ekf
      = stubCollab.Reset (stubController (restStateWith 0 nan) false (enc4 0 0 0 0)).ekf ∧
    (UpdateState stubCollab M_PI_double () 460800 (fin 0) (fin 0) zero3 zero3 0
        (enc4 1 2 3 4) (fin 1) (stubController (restStateWith 0 nan) false (enc4 0 0 0 0))).calls
      = (stubController (restStateWith 0 nan) false (enc4 0 0 0 0)).calls ++ [Call.Reset] :=
  UpdateState_diverged_first_component stubCollab M_PI_double () 460800 (fin 0) (fin 0)
    zero3 zero3 0 (enc4 1 2 3 4) (fin 1)
    (stubController (restStateWith 0 nan) false (enc4 0 0 0 0)) (Or.inl rfl)

/-- C2 fails as stated: a state vector whose first component is finite and whose
component 3 is NaN contains a NaN, yet the tick makes no `Reset` call; it predicts and
fuses, and the state afterwards still has the NaN, unlike the post-reset state. -/
theorem UpdateState_nan_elsewhere_no_reset :
    isnan (restStateWith 3 nan 3) = true ∧
    (UpdateState stubCollab M_PI_double () 0 (fin 0) (fin 0) zero3 zero3 0
        (enc4 0 0 0 0) (fin 1) (stubController (restStateWith 3 nan) false (enc4 0 0 0 0))).calls
      = [Call.Predict (fin 1) (fin 0) (fin 0), Call.UpdateIMU (fin 0),
         Call.UpdateEncoders (fin 0) 0] ∧
    (UpdateState stubCollab M_PI_double () 0 (fin 0) (fin 0) zero3 zero3 0
        (enc4 0 0 0 0) (fin 1)
        (stubController (restStateWith 3 nan) false (enc4 0 0 0 0))).ekf.x_ 3 = nan ∧
    (stubCollab.Reset (stubController (restStateWith 3 nan) false (enc4 0 0 0 0)).ekf).x_ 3
      = fin 0 := by
  refine ⟨rfl, ?_, ?_, rfl⟩
  · rfl
  · rfl

/-- C3. When the first state component is NaN or infinite at entry to `UpdateState`, the
tick calls the estimator's `Reset` and nothing else (none of `Predict`, `UpdateCenterline`,
`UpdateIMU`, `UpdateEncoders`, nor the extractor), sets the first-tick flag, and leaves
the encoder snapshot unchanged. -/
theorem UpdateState_abort {P R Y : Type} (E : Collab α P R Y) (M_PI : α)
    (yuv : Y) (yuvlen : Nat) (throttle_in steering_in : CFloat α)
    (accel gyro : Fin 3 → CFloat α) (servo_pos : Nat) (wheel_encoders : Fin 4 → Nat)
    (dt : CFloat α) (d : DriveController α P R Y)
    (h : isnan (d.ekf.x_ 0) = true ∨ isinf (d.ekf.x_ 0) = true) :
    UpdateState E M_PI yuv yuvlen throttle_in steering_in accel gyro servo_pos
        wheel_encoders dt d =
      { ekf := E.Reset d.ekf, firstframe_ := true, last_encoders_ := d.last_encoders_,
        calls := d.calls ++ [Call.Reset] } := by
  have hc : (isinf (d.ekf.x_ 0) || isnan (d.ekf.x_ 0)) = true := by
    rcases h with h | h <;> simp [h]
  unfold UpdateState
  simp only [hc, if_true]
  rfl

/-- Witness of C3: a controller whose state vector starts with +∞, on a tick that is not
the first. -/
theorem UpdateState_abort_witness :
    UpdateState stubCollab M_PI_double () 460800 (fin 0) (fin 0) zero3 zero3 0
        (enc4 1 2 3 4) (fin 1) (stubController (restStateWith 0 pinf) false (enc4 9 9 9 9)) =
      { ekf := stubCollab.Reset (stubController (restStateWith 0 pinf) false (enc4 9 9 9 9)).ekf,
        firstframe_ := true,
        last_encoders_ := (stubController (restStateWith 0 pinf) false (enc4 9 9 9 9)).last_encoders_,
        calls := (stubController (restStateWith 0 pinf) false (enc4 9 9 9 9)).calls
          ++ [Call.Reset] } :=
  UpdateState_abort stubCollab M_PI_double () 460800 (fin 0) (fin 0) zero3 zero3 0
    (enc4 1 2 3 4) (fin 1) (stubController (restStateWith 0 pinf) false (enc4 9 9 9 9))
    (Or.inr rfl)

/-- C4 (as amended). For all 16-bit snapshot and reading values, the tick delta of a rear
encoder whose reading differs from its snapshot is the unsigned 16-bit wraparound
difference: the unique value in `[1, 65535]` congruent to `reading - snapshot` modulo
65536; and the loop of `UpdateState` accumulates in `ds` the sum of these deltas over the
rear encoders that changed. -/
theorem encoder_delta_unsigned_wraparound (wheel_encoders last_encoders_ : Fin 4 → Nat)
    (hw : ∀ i, wheel_encoders i < 65536) (hl : ∀ i, last_encoders_ i < 65536) :
    (∀ i, wheel_encoders i ≠ last_encoders_ i →
      1 ≤ encoderDelta (wheel_encoders i) (last_encoders_ i) ∧
      encoderDelta (wheel_encoders i) (last_encoders_ i) ≤ 65535 ∧
      ((encoderDelta (wheel_encoders i) (last_encoders_ i) : Int)
          - ((wheel_encoders i : Int) - (last_encoders_ i : Int))) % 65536 = 0 ∧
      ∀ k : Int, 0 ≤ k → k ≤ 65535 →
        (k - ((wheel_encoders i : Int) - (last_encoders_ i : Int))) % 65536 = 0 →
        k = (encoderDelta (wheel_encoders i) (last_encoders_ i) : Int)) ∧
    (rearEncoderSum wheel_encoders last_encoders_ : CFloat α × CFloat α).1 =
      fin ((((if wheel_encoders 2 ≠ last_encoders_ 2
              then encoderDelta (wheel_encoders 2) (last_encoders_ 2) else 0)
          + (if wheel_encoders 3 ≠ last_encoders_ 3
              then encoderDelta (wheel_encoders 3) (last_encoders_ 3) else 0) : Nat)) : α) := by
  refine ⟨?_, ?_⟩
  · intro i hne
    have h1 := hw i
    have h2 := hl i
    rw [encoderDelta_eq _ _ h1 h2]
    refine ⟨?_, ?_, ?_, ?_⟩
    · split <;> omega
    · split <;> omega
    · split <;> omega
    · intro k hk0 hk1 hk
      split <;> omega
  · rw [rearEncoderSum_eq]

/-- Witness of C4 (as amended): snapshot `[0, 0, 65530, 7]`, reading `[0, 0, 4, 7]`. -/
theorem encoder_delta_unsigned_wraparound_witness :
    (∀ i, enc4 0 0 4 7 i ≠ enc4 0 0 65530 7 i →
      1 ≤ encoderDelta (enc4 0 0 4 7 i) (enc4 0 0 65530 7 i) ∧
      encoderDelta (enc4 0 0 4 7 i) (enc4 0 0 65530 7 i) ≤ 65535 ∧
      ((encoderDelta (enc4 0 0 4 7 i) (enc4 0 0 65530 7 i) : Int)
          - ((enc4 0 0 4 7 i : Int) - (enc4 0 0 65530 7 i : Int))) % 65536 = 0 ∧
      ∀ k : Int, 0 ≤ k → k ≤ 65535 →
        (k - ((enc4 0 0 4 7 i : Int) - (enc4 0 0 65530 7 i : Int))) % 65536 = 0 →
        k = (encoderDelta (enc4 0 0 4 7 i) (enc4 0 0 65530 7 i) : Int)) ∧
    (rearEncoderSum (enc4 0 0 4 7) (enc4 0 0 65530 7) : CFloat ℚ × CFloat ℚ).1 =
      fin ((((if enc4 0 0 4 7 2 ≠ enc4 0 0 65530 7 2
              then encoderDelta (enc4 0 0 4 7 2) (enc4 0 0 65530 7 2) else 0)
          + (if enc4 0 0 4 7 3 ≠ enc4 0 0 65530 7 3
              then encoderDelta (enc4 0 0 4 7 3) (enc4 0 0 65530 7 3) else 0) : Nat)) : ℚ) :=
  encoder_delta_unsigned_wraparound (enc4 0 0 4 7) (enc4 0 0 65530 7)
    (by decide) (by decide)

/-- C4 fails as stated: with snapshot 5 and reading 4 (the counter one below its snapshot)
the delta is 65535, outside `[-32768, 32767]` and not -1; a tick with the rear snapshot
`[5, 5]`, the rear reading `[4, 5]` and `dt = 1` accumulates `ds = 65535`, `nds = 1` and
passes the speed 65535 to `UpdateEncoders`. -/
theorem encoder_delta_not_signed :
    encoderDelta 4 5 = 65535 ∧
    ¬ ((encoderDelta 4 5 : Int) ≤ 32767) ∧
    (rearEncoderSum (enc4 0 0 4 5) (enc4 0 0 5 5) : CFloat ℚ × CFloat ℚ)
      = (fin 65535, fin 1) ∧
    (UpdateState stubCollab M_PI_double () 0 (fin 0) (fin 0) zero3 zero3 0
        (enc4 0 0 4 5) (fin 1) (stubController restState false (enc4 0 0 5 5))).calls
      = [Call.Predict (fin 1) (fin 0) (fin 0), Call.UpdateIMU (fin 0),
         Call.UpdateEncoders (fin 65535) 0] := by
  have e : encoderDelta 4 5 = 65535 := by decide
  refine ⟨e, by decide, ?_, ?_⟩
  · rw [rearEncoderSum_eq]
    norm_num [e]
  · have hrun : (isinf ((stubController restState false (enc4 0 0 5 5)).ekf.x_ 0) ||
        isnan ((stubController restState false (enc4 0 0 5 5)).ekf.x_ 0)) = false := rfl
    rw [UpdateState_run _ _ _ _ _ _ _ _ _ _ _ _ hrun,
      encoderSpeed_eq _ _ (one_ne_zero : (1 : ℚ) ≠ 0)]
    norm_num [stubController, e, cameraCalls, zero3]

/-- C5 (as amended). Encoder wraparound example: on a tick that is neither aborted nor the
first, with rear snapshot values 65530 and 65530, rear readings 4 and 4 and `dt = 0.1`,
each rear wheel's delta is 10 ticks, the accumulated sum is 20, the contributor count is 2,
and the speed passed to `UpdateEncoders` is `20 / (2 · 0.1) = 100` ticks/s. -/
theorem UpdateState_wraparound_example {P R Y : Type} (E : Collab α P R Y) (M_PI : α)
    (yuv : Y) (yuvlen : Nat) (throttle_in steering_in : CFloat α)
    (accel gyro : Fin 3 → CFloat α) (servo_pos : Nat) (wheel_encoders : Fin 4 → Nat)
    (d : DriveController α P R Y)
    (hrun : (isinf (d.ekf.x_ 0) || isnan (d.ekf.x_ 0)) = false)
    (hfirst : d.firstframe_ = false)
    (hl2 : d.last_encoders_ 2 = 65530) (hl3 : d.last_encoders_ 3 = 65530)
    (hw2 : wheel_encoders 2 = 4) (hw3 : wheel_encoders 3 = 4) :
    encoderDelta (wheel_encoders 2) (d.last_encoders_ 2) = 10 ∧
    encoderDelta (wheel_encoders 3) (d.last_encoders_ 3) = 10 ∧
    (rearEncoderSum wheel_encoders d.last_encoders_ : CFloat α × CFloat α)
      = (fin 20, fin 2) ∧
    (UpdateState E M_PI yuv yuvlen throttle_in steering_in accel gyro servo_pos
        wheel_encoders (fin 0.1) d).calls =
      d.calls ++ [Call.Predict (fin 0.1) throttle_in steering_in]
        ++ cameraCalls E yuv yuvlen
        ++ [Call.UpdateIMU (gyro 2), Call.UpdateEncoders (fin 100) servo_pos] := by
  have e : encoderDelta 4 65530 = 10 := by decide
  have ht : (0.1 : α) ≠ 0 := by norm_num
  refine ⟨by rw [hw2, hl2, e], by rw [hw3, hl3, e], ?_, ?_⟩
  · rw [rearEncoderSum_eq, hw2, hw3, hl2, hl3]
    norm_num [e]
  · rw [UpdateState_run _ _ _ _ _ _ _ _ _ _ _ _ hrun, hfirst]
    simp only [Bool.false_eq_true, if_false]
    rw [encoderSpeed_eq _ _ ht, hw2, hw3, hl2, hl3]
    norm_num [e]

/-- Witness of C5 (as amended): the stub controller with snapshot `[1, 2, 65530, 65530]`
and reading `[3, 4, 4, 4]`. -/
theorem UpdateState_wraparound_example_witness :
    encoderDelta (enc4 3 4 4 4 2)
      ((stubController restState false (enc4 1 2 65530 65530)).last_encoders_ 2) = 10 ∧
    encoderDelta (enc4 3 4 4 4 3)
      ((stubController restState false (enc4 1 2 65530 65530)).last_encoders_ 3) = 10 ∧
    (rearEncoderSum (enc4 3 4 4 4)
        (stubController restState false (enc4 1 2 65530 65530)).last_encoders_
          : CFloat ℚ × CFloat ℚ) = (fin 20, fin 2) ∧
    (UpdateState stubCollab M_PI_double () 460800 (fin 0) (fin 0) zero3 zero3 7
        (enc4 3 4 4 4) (fin 0.1)
        (stubController restState false (enc4 1 2 65530 65530))).calls =
      (stubController restState false (enc4 1 2 65530 65530)).calls
        ++ [Call.Predict (fin 0.1) (fin 0) (fin 0)]
        ++ cameraCalls stubCollab () 460800
        ++ [Call.UpdateIMU (zero3 2), Call.UpdateEncoders (fin 100) 7] :=
  UpdateState_wraparound_example stubCollab M_PI_double () 460800 (fin 0) (fin 0) zero3
    zero3 7 (enc4 3 4 4 4) (stubController restState false (enc4 1 2 65530 65530))
    rfl rfl rfl rfl rfl rfl

/-- C5 fails as stated: with rear snapshot `[65530, 65530]`, rear reading `[4, 4]` and
`dt = 0.1` the tick passes the speed 100 to `UpdateEncoders`, not 50. -/
theorem UpdateState_wraparound_speed_not_50 :
    (UpdateState stubCollab M_PI_double () 0 (fin 0) (fin 0) zero3 zero3 0
        (enc4 0 0 4 4) (fin 0.1)
        (stubController restState false (enc4 0 0 65530 65530))).calls
      = [Call.Predict (fin 0.1) (fin 0) (fin 0), Call.UpdateIMU (fin 0),
         Call.UpdateEncoders (fin 100) 0] ∧
    (Call.UpdateEncoders (fin 100) 0 : Call ℚ Unit Unit) ≠ Call.UpdateEncoders (fin 50) 0 := by
  have e : encoderDelta 4 65530 = 10 := by decide
  have hrun : (isinf ((stubController restState false (enc4 0 0 65530 65530)).ekf.x_ 0) ||
      isnan ((stubController restState false (enc4 0 0 65530 65530)).ekf.x_ 0)) = false := rfl
  refine ⟨?_, ?_⟩
  · rw [UpdateState_run _ _ _ _ _ _ _ _ _ _ _ _ hrun,
      encoderSpeed_eq _ _ (show (0.1 : ℚ) ≠ 0 by norm_num)]
    norm_num [stubController, e, cameraCalls, zero3]
  · intro h
    injection h with h1 _
    injection h1 with h2
    norm_num at h2

/-- C6. On every tick that is not aborted, with a finite `dt > 0`, `UpdateEncoders` is
called exactly once, as the last call of the tick, with the given servo position; the
speed it is passed is (sum of the deltas of the rear encoders that changed) / (number of
rear encoders that changed × dt) when at least one rear encoder changed, and 0 when neither
did.  Here `snap` is the snapshot the loop compares with: the reading itself on a first
tick, `last_encoders_` otherwise. -/
theorem UpdateState_encoder_speed {P R Y : Type} (E : Collab α P R Y) (M_PI : α)
    (yuv : Y) (yuvlen : Nat) (throttle_in steering_in : CFloat α)
    (accel gyro : Fin 3 → CFloat α) (servo_pos : Nat) (wheel_encoders : Fin 4 → Nat)
    (dt : α) (d : DriveController α P R Y) (snap : Fin 4 → Nat)
    (hrun : (isinf (d.ekf.x_ 0) || isnan (d.ekf.x_ 0)) = false)
    (hdt : 0 < dt)
    (hsnap : snap = if d.firstframe_ then wheel_encoders else d.last_encoders_) :
    ∃ pre : List (Call α R Y),
      (∀ c ∈ pre, ∀ speed pos, c ≠ Call.UpdateEncoders speed pos) ∧
      (UpdateState E M_PI yuv yuvlen throttle_in steering_in accel gyro servo_pos
          wheel_encoders (fin dt) d).calls =
        d.calls ++ pre ++
          [Call.UpdateEncoders
            (fin (if wheel_encoders 2 = snap 2 ∧ wheel_encoders 3 = snap 3 then 0
              else
                ((((if wheel_encoders 2 ≠ snap 2
                      then encoderDelta (wheel_encoders 2) (snap 2) else 0)
                  + (if wheel_encoders 3 ≠ snap 3
                      then encoderDelta (wheel_encoders 3) (snap 3) else 0) : Nat)) : α) /
                (((((if wheel_encoders 2 ≠ snap 2 then 1 else 0)
                  + (if wheel_encoders 3 ≠ snap 3 then 1 else 0) : Nat)) : α) * dt)))
            servo_pos] := by
  refine ⟨[Call.Predict (fin dt) throttle_in steering_in] ++ cameraCalls E yuv yuvlen
      ++ [Call.UpdateIMU (gyro 2)], ?_, ?_⟩
  · intro c hc speed pos
    simp only [List.mem_append, List.mem_singleton] at hc
    rcases hc with (hc | hc) | hc
    · simp [hc]
    · rcases (mem_cameraCalls E yuv yuvlen hc).2 with h | ⟨a, b, c', yc, Rk, _, h⟩ <;>
        simp [h]
    · simp [hc]
  · rw [UpdateState_run _ _ _ _ _ _ _ _ _ _ _ _ hrun, ← hsnap,
      encoderSpeed_eq _ _ (ne_of_gt hdt)]
    simp

/-- Witness of C6: the stub controller with rear snapshot `[10, 20]`, rear reading
`[13, 20]` and `dt = 1/2`: one rear encoder changed, by 3 ticks, and the speed is 6. -/
theorem UpdateState_encoder_speed_witness :
    ∃ pre : List (Call ℚ Unit Unit),
      (∀ c ∈ pre, ∀ speed pos, c ≠ Call.UpdateEncoders speed pos) ∧
      (UpdateState stubCollab M_PI_double () 460800 (fin 0) (fin 0) zero3 zero3 3
          (enc4 0 0 13 20) (fin (1 / 2))
          (stubController restState false (enc4 0 0 10 20))).calls =
        pre ++ [Call.UpdateEncoders (fin 6) 3] := by
  have e : encoderDelta 13 10 = 3 := by decide
  obtain ⟨pre, h1, h2⟩ := UpdateState_encoder_speed stubCollab M_PI_double () 460800
    (fin 0) (fin 0) zero3 zero3 3 (enc4 0 0 13 20) (1 / 2)
    (stubController restState false (enc4 0 0 10 20)) (enc4 0 0 10 20) rfl (by norm_num) rfl
  refine ⟨pre, h1, ?_⟩
  rw [h2]
  norm_num [stubController, e]

/-- C7 (as amended). Heading fold, with `M_PI = π`: a finite heading error `psi_e` with
`|psi_e| ≤ 3π/2` is mapped to a finite value in the closed interval `[-π/2, π/2]`, and
into `(-π/2, π/2]` unless `psi_e` is `-π/2` or `-3π/2`; and `psi_e = 2.0` is mapped to
`2.0 - π`. -/
theorem foldPsi_range :
    (∀ psi_e : ℝ, |psi_e| ≤ 3 * Real.pi / 2 →
      ∃ y : ℝ, foldPsi Real.pi (fin psi_e) = fin y ∧
        -(Real.pi / 2) ≤ y ∧ y ≤ Real.pi / 2 ∧
        (psi_e ≠ -(Real.pi / 2) → psi_e ≠ -(3 * Real.pi / 2) → -(Real.pi / 2) < y)) ∧
    foldPsi Real.pi (fin (2.0 : ℝ)) = fin (2.0 - Real.pi) := by
  have hpi := Real.pi_pos
  constructor
  · intro x habs
    have hx := abs_le.1 habs
    refine ⟨_, foldPsi_fin Real.pi x, ?_⟩
    by_cases h1 : Real.pi / 2 < x
    · rw [if_pos h1]
      exact ⟨by linarith, by linarith [hx.2], fun _ _ => by linarith⟩
    · rw [if_neg h1]
      have h1' : x ≤ Real.pi / 2 := not_lt.1 h1
      by_cases h2 : x < -Real.pi / 2
      · rw [if_pos h2]
        refine ⟨by linarith [hx.1], by linarith, fun _ hne => ?_⟩
        have hlo : -(3 * Real.pi / 2) < x :=
          lt_of_le_of_ne hx.1 (fun hx' => hne hx'.symm)
        linarith
      · rw [if_neg h2]
        have h2' : -(Real.pi / 2) ≤ x := by
          have := not_lt.1 h2
          linarith
        exact ⟨h2', h1', fun hne _ => lt_of_le_of_ne h2' (fun hx' => hne hx'.symm)⟩
  · rw [foldPsi_fin, if_pos]
    have := Real.pi_lt_four
    linarith

/-- Witness of C7 (as amended): `psi_e = 2` satisfies `|psi_e| ≤ 3π/2`, and its fold lies
in `[-π/2, π/2]`. -/
theorem foldPsi_range_witness :
    ∃ y : ℝ, foldPsi Real.pi (fin 2) = fin y ∧ -(Real.pi / 2) ≤ y ∧ y ≤ Real.pi / 2 := by
  have h3 := Real.pi_gt_three
  have habs : |(2 : ℝ)| ≤ 3 * Real.pi / 2 := by
    rw [abs_of_pos (by norm_num : (0 : ℝ) < 2)]
    linarith
  obtain ⟨y, hy, hlo, hhi, _⟩ := foldPsi_range.1 2 habs
  exact ⟨y, hy, hlo, hhi⟩

/-- C7 fails as stated: the heading error `psi_e = 5` is folded to `5 - π`, which is
greater than `π/2`; and `psi_e = -π/2` is left at `-π/2`, the excluded end of
`(-π/2, π/2]`. -/
theorem foldPsi_out_of_range :
    foldPsi Real.pi (fin (5 : ℝ)) = fin (5 - Real.pi) ∧ Real.pi / 2 < 5 - Real.pi ∧
    foldPsi Real.pi (fin (-(Real.pi / 2))) = fin (-(Real.pi / 2)) := by
  have h4 := Real.pi_lt_d2
  have h0 := Real.pi_pos
  refine ⟨?_, ?_, ?_⟩
  · rw [foldPsi_fin, if_pos]
    linarith
  · norm_num at h4
    linarith
  · rw [foldPsi_fin, if_neg, if_neg]
    · intro h
      linarith
    · intro h
      linarith

/-- C8. Camera frame length gate: on a tick that is not aborted, the extractor
`TophatFilter` is invoked if and only if `yuvlen` equals 640·480 + 320·240·2 = 460800.
For every other length neither the extractor nor `UpdateCenterline` is called, and the rest
of the tick still runs: the calls of the tick are `Predict`, `UpdateIMU`, `UpdateEncoders`,
and the estimator goes through prediction, yaw-rate update, heading fold and wheel-speed
update. -/
theorem UpdateState_camera_gate {P R Y : Type} (E : Collab α P R Y) (M_PI : α)
    (yuv : Y) (yuvlen : Nat) (throttle_in steering_in : CFloat α)
    (accel gyro : Fin 3 → CFloat α) (servo_pos : Nat) (wheel_encoders : Fin 4 → Nat)
    (dt : CFloat α) (d : DriveController α P R Y)
    (hrun : (isinf (d.ekf.x_ 0) || isnan (d.ekf.x_ 0)) = false) :
    640 * 480 + 320 * 240 * 2 = 460800 ∧
    ∃ tick : List (Call α R Y),
      (UpdateState E M_PI yuv yuvlen throttle_in steering_in accel gyro servo_pos
          wheel_encoders dt d).calls = d.calls ++ tick ∧
      ((∃ y, Call.TophatFilter y ∈ tick) ↔ yuvlen = 460800) ∧
      (yuvlen ≠ 460800 →
        ∃ speed,
          tick = [Call.Predict dt throttle_in steering_in, Call.UpdateIMU (gyro 2),
                  Call.UpdateEncoders speed servo_pos] ∧
          (UpdateState E M_PI yuv yuvlen throttle_in steering_in accel gyro servo_pos
              wheel_encoders dt d).ekf =
            E.UpdateEncoders speed servo_pos
              (foldHeading M_PI (E.UpdateIMU (gyro 2)
                (E.Predict dt throttle_in steering_in d.ekf)))) := by
  refine ⟨by norm_num, [Call.Predict dt throttle_in steering_in] ++ cameraCalls E yuv yuvlen
      ++ [Call.UpdateIMU (gyro 2),
          Call.UpdateEncoders (encoderSpeed wheel_encoders
            (if d.firstframe_ then wheel_encoders else d.last_encoders_) dt) servo_pos],
      ?_, ?_, ?_⟩
  · rw [UpdateState_run _ _ _ _ _ _ _ _ _ _ _ _ hrun]
    simp
  · constructor
    · rintro ⟨y, hy⟩
      simp only [List.mem_append, List.mem_singleton, List.mem_cons, List.not_mem_nil,
        or_false] at hy
      rcases hy with (hy | hy) | hy
      · exact absurd hy (by simp)
      · exact (mem_cameraCalls E yuv yuvlen hy).1
      · rcases hy with hy | hy <;> exact absurd hy (by simp)
    · intro hy
      refine ⟨yuv, ?_⟩
      have : Call.TophatFilter yuv ∈ cameraCalls E yuv yuvlen := by
        unfold cameraCalls
        rw [if_pos (by omega)]
        rcases E.TophatFilter yuv with _ | ⟨a, b, c, yc, Rk⟩ <;> simp
      simp [this]
  · intro hy
    refine ⟨encoderSpeed wheel_encoders
      (if d.firstframe_ then wheel_encoders else d.last_encoders_) dt, ?_, ?_⟩
    · have hc : cameraCalls E yuv yuvlen = [] := by
        unfold cameraCalls
        rw [if_neg (by omega)]
      rw [hc]
      rfl
    · rw [UpdateState_run _ _ _ _ _ _ _ _ _ _ _ _ hrun]
      have ha : afterCamera E yuv yuvlen (E.Predict dt throttle_in steering_in d.ekf)
          = E.Predict dt throttle_in steering_in d.ekf := by
        unfold afterCamera
        rw [if_neg (by omega)]
      rw [ha]

/-- Witness of C8: the stub controller on a tick with a frame of length 460799. -/
theorem UpdateState_camera_gate_witness :
    640 * 480 + 320 * 240 * 2 = 460800 ∧
    ∃ tick : List (Call ℚ Unit Unit),
      (UpdateState stubCollab M_PI_double () 460799 (fin 0) (fin 0) zero3 zero3 0
          (enc4 0 0 0 0) (fin 1) (stubController restState true (enc4 0 0 0 0))).calls
        = (stubController restState true (enc4 0 0 0 0)).calls ++ tick ∧
      ((∃ y, Call.TophatFilter y ∈ tick) ↔ 460799 = 460800) ∧
      (460799 ≠ 460800 →
        ∃ speed,
          tick = [Call.Predict (fin 1) (fin 0) (fin 0), Call.UpdateIMU (zero3 2),
                  Call.UpdateEncoders speed 0] ∧
          (UpdateState stubCollab M_PI_double () 460799 (fin 0) (fin 0) zero3 zero3 0
              (enc4 0 0 0 0) (fin 1) (stubController restState true (enc4 0 0 0 0))).ekf =
            stubCollab.UpdateEncoders speed 0
              (foldHeading M_PI_double (stubCollab.UpdateIMU (zero3 2)
                (stubCollab.Predict (fin 1) (fin 0) (fin 0)
                  (stubController restState true (enc4 0 0 0 0)).ekf)))) :=
  UpdateState_camera_gate stubCollab M_PI_double () 460799 (fin 0) (fin 0) zero3 zero3 0
    (enc4 0 0 0 0) (fin 1) (stubController restState true (enc4 0 0 0 0)) rfl

/-- C9. On every tick that is not aborted the collaborators are called in this order:
`Predict(dt, throttle_in, steering_in)` once; then, only when the frame length matches, the
extractor and, only when it reports a fit, `UpdateCenterline` once with that fit; then
`UpdateIMU(gyro[2])` once; then the heading fold rewrites `x_[3]`; then `UpdateEncoders`
once.  The estimator after the tick is the composition of these steps in this order. -/
theorem UpdateState_call_order {P R Y : Type} (E : Collab α P R Y) (M_PI : α)
    (yuv : Y) (yuvlen : Nat) (throttle_in steering_in : CFloat α)
    (accel gyro : Fin 3 → CFloat α) (servo_pos : Nat) (wheel_encoders : Fin 4 → Nat)
    (dt : CFloat α) (d : DriveController α P R Y)
    (hrun : (isinf (d.ekf.x_ 0) || isnan (d.ekf.x_ 0)) = false) :
    ∃ (e_pred e_cam e_imu e_fold : EKF α P) (cam : List (Call α R Y)) (speed : CFloat α),
      e_pred = E.Predict dt throttle_in steering_in d.ekf ∧
      ((yuvlen ≠ 460800 ∧ cam = [] ∧ e_cam = e_pred) ∨
       (yuvlen = 460800 ∧ E.TophatFilter yuv = none ∧
          cam = [Call.TophatFilter yuv] ∧ e_cam = e_pred) ∨
       (∃ a b c yc Rk, yuvlen = 460800 ∧ E.TophatFilter yuv = some (a, b, c, yc, Rk) ∧
          cam = [Call.TophatFilter yuv, Call.UpdateCenterline a b c yc Rk] ∧
          e_cam = E.UpdateCenterline a b c yc Rk e_pred)) ∧
      e_imu = E.UpdateIMU (gyro 2) e_cam ∧
      e_fold = { e_imu with x_ := Function.update e_imu.x_ 3 (foldPsi M_PI (e_imu.x_ 3)) } ∧
      (UpdateState E M_PI yuv yuvlen throttle_in steering_in accel gyro servo_pos
          wheel_encoders dt d).ekf = E.UpdateEncoders speed servo_pos e_fold ∧
      (UpdateState E M_PI yuv yuvlen throttle_in steering_in accel gyro servo_pos
          wheel_encoders dt d).calls =
        d.calls ++ [Call.Predict dt throttle_in steering_in] ++ cam
          ++ [Call.UpdateIMU (gyro 2), Call.UpdateEncoders speed servo_pos] := by
  rw [UpdateState_run _ _ _ _ _ _ _ _ _ _ _ _ hrun]
  refine ⟨E.Predict dt throttle_in steering_in d.ekf,
    afterCamera E yuv yuvlen (E.Predict dt throttle_in steering_in d.ekf), _, _,
    cameraCalls E yuv yuvlen, _, rfl, ?_, rfl, rfl, rfl, rfl⟩
  unfold afterCamera cameraCalls
  by_cases hy : yuvlen = 640 * 480 + 320 * 240 * 2
  · rw [if_pos hy, if_pos hy]
    rcases hT : E.TophatFilter yuv with _ | ⟨a, b, c, yc, Rk⟩
    · exact Or.inr (Or.inl ⟨by omega, rfl, rfl, rfl⟩)
    · exact Or.inr (Or.inr ⟨a, b, c, yc, Rk, by omega, rfl, rfl, rfl⟩)
  · rw [if_neg hy, if_neg hy]
    exact Or.inl ⟨by omega, rfl, rfl⟩

/-- Witness of C9: a first tick of the controller whose extractor reports a fit, on a
frame of the expected length. -/
theorem UpdateState_call_order_witness :
    ∃ (e_pred e_cam e_imu e_fold : EKF ℚ Unit) (cam : List (Call ℚ Unit Unit))
        (speed : CFloat ℚ),
      e_pred = fitCollab.Predict (fin 1) (fin 0) (fin 0)
        (stubController restState true (enc4 0 0 0 0)).ekf ∧
      (((460800 : Nat) ≠ 460800 ∧ cam = [] ∧ e_cam = e_pred) ∨
       (460800 = 460800 ∧ fitCollab.TophatFilter () = none ∧
          cam = [Call.TophatFilter ()] ∧ e_cam = e_pred) ∨
       (∃ a b c yc Rk, 460800 = 460800 ∧ fitCollab.TophatFilter () = some (a, b, c, yc, Rk) ∧
          cam = [Call.TophatFilter (), Call.UpdateCenterline a b c yc Rk] ∧
          e_cam = fitCollab.UpdateCenterline a b c yc Rk e_pred)) ∧
      e_imu = fitCollab.UpdateIMU (zero3 2) e_cam ∧
      e_fold = { e_imu with
        x_ := Function.update e_imu.x_ 3 (foldPsi M_PI_double (e_imu.x_ 3)) } ∧
      (UpdateState fitCollab M_PI_double () 460800 (fin 0) (fin 0) zero3 zero3 0
          (enc4 1 2 3 4) (fin 1) (stubController restState true (enc4 0 0 0 0))).ekf
        = fitCollab.UpdateEncoders speed 0 e_fold ∧
      (UpdateState fitCollab M_PI_double () 460800 (fin 0) (fin 0) zero3 zero3 0
          (enc4 1 2 3 4) (fin 1) (stubController restState true (enc4 0 0 0 0))).calls =
        (stubController restState true (enc4 0 0 0 0)).calls
          ++ [Call.Predict (fin 1) (fin 0) (fin 0)] ++ cam
          ++ [Call.UpdateIMU (zero3 2), Call.UpdateEncoders speed 0] :=
  UpdateState_call_order fitCollab M_PI_double () 460800 (fin 0) (fin 0) zero3 zero3 0
    (enc4 1 2 3 4) (fin 1) (stubController restState true (enc4 0 0 0 0)) rfl

/-- C10. Motor inversion, forward branch: for all float values `accel`, `k1..k4`, `v`
with `accel > -k3·v - k4`, `MotorControl` returns
`clip((accel + k3·v + k4)/(k1 - k2·v), 0, 1)` (in this model the equation needs no
assumption on the divisor `k1 - k2·v`: both sides are the same quotient); for `k1 = 2`,
`k2 = 0.1`, `k3 = 0.05`, `k4 = 0.02`, `v = 1`, `accel = 0.5` it returns 0.3. -/
theorem MotorControl_forward :
    (∀ accel k1 k2 k3 k4 v : CFloat α, -k3 * v - k4 < accel →
      MotorControl accel k1 k2 k3 k4 v =
        clip ((accel + k3 * v + k4) / (k1 - k2 * v)) (fin 0) (fin 1)) ∧
    MotorControl (fin (0.5 : ℚ)) (fin 2) (fin 0.1) (fin 0.05) (fin 0.02) (fin 1) = fin 0.3 := by
  constructor
  · intro accel k1 k2 k3 k4 v h
    unfold MotorControl
    simp only [h, if_true, one_mul_cfloat, eq_fin_fin, decide_True]
  · norm_num [MotorControl, clip, fin_div_fin]

/-- Witness of C10: `accel = 1`, `k1 = 3`, `k2 = k3 = k4 = 1`, `v = 1`, where the threshold
is -2 and the duty cycle is `clip(3/2, 0, 1) = 1`. -/
theorem MotorControl_forward_witness :
    MotorControl (fin (1 : ℚ)) (fin 3) (fin 1) (fin 1) (fin 1) (fin 1) =
      clip ((fin 1 + fin 1 * fin 1 + fin 1) / (fin 3 - fin 1 * fin 1)) (fin 0) (fin 1) :=
  MotorControl_forward.1 (fin 1) (fin 3) (fin 1) (fin 1) (fin 1) (fin 1) (by norm_num)

/-- C11 (as amended). Motor inversion, braking branch: for all float values `accel`,
`k1..k4`, `v` for which `accel > -k3·v - k4` is false, `MotorControl` uses the voltage
`V = 0` and returns `-clip((accel + k3·v + k4)/(0·k1 - k2·v), 0, 1)`; on finite values with
`accel ≤ -k3·v - k4` this is `-clip((accel + k3·v + k4)/(-k2·v), 0, 1)`. -/
theorem MotorControl_brake :
    (∀ accel k1 k2 k3 k4 v : CFloat α, ¬ (-k3 * v - k4 < accel) →
      MotorControl accel k1 k2 k3 k4 v =
        -clip ((accel + k3 * v + k4) / (fin 0 * k1 - k2 * v)) (fin 0) (fin 1)) ∧
    (∀ accel k1 k2 k3 k4 v : α, accel ≤ -k3 * v - k4 →
      MotorControl (fin accel) (fin k1) (fin k2) (fin k3) (fin k4) (fin v) =
        -clip (fin (accel + k3 * v + k4) / fin (-(k2 * v))) (fin 0) (fin 1)) := by
  have key : ∀ accel k1 k2 k3 k4 v : CFloat α, ¬ (-k3 * v - k4 < accel) →
      MotorControl accel k1 k2 k3 k4 v =
        -clip ((accel + k3 * v + k4) / (fin 0 * k1 - k2 * v)) (fin 0) (fin 1) := by
    intro accel k1 k2 k3 k4 v h
    unfold MotorControl
    simp [h]
  refine ⟨key, ?_⟩
  intro accel k1 k2 k3 k4 v h
  rw [key]
  · simp
  · simp only [neg_fin, fin_mul_fin, fin_sub_fin, fin_lt_fin, not_lt]
    exact h

/-- Witness of C11 (as amended): `accel = -3`, `k1 = k2 = k3 = k4 = 1`, `v = 1`, where the
threshold is -2. -/
theorem MotorControl_brake_witness :
    MotorControl (fin (-3 : ℚ)) (fin 1) (fin 1) (fin 1) (fin 1) (fin 1) =
      -clip (fin (-3 + 1 * 1 + 1) / fin (-(1 * 1))) (fin 0) (fin 1) :=
  MotorControl_brake.2 (-3) 1 1 1 1 1 (by norm_num)

/-- C11 fails as stated: for `accel = -3`, `k1 = k2 = k3 = k4 = 1`, `v = 1` the condition
`accel ≤ -k3·v - k4 = -2` holds and `MotorControl` returns -1, while the claimed value
`-clip((accel + k3·v + k4)/(-k1 - k2·v), 0, 1)` is -1/2. -/
theorem MotorControl_reverse_not_minus_k1 :
    MotorControl (fin (-3 : ℚ)) (fin 1) (fin 1) (fin 1) (fin 1) (fin 1) = fin (-1) ∧
    -clip ((fin (-3 : ℚ) + fin 1 * fin 1 + fin 1) / (-fin 1 - fin 1 * fin 1)) (fin 0) (fin 1)
      = fin (-1 / 2) ∧
    (fin (-1) : CFloat ℚ) ≠ fin (-1 / 2) := by
  refine ⟨?_, ?_, ?_⟩
  · norm_num [MotorControl, clip, fin_div_fin]
  · norm_num [clip, fin_div_fin]
  · intro h
    injection h with h1
    norm_num at h1

/-- C12, the code at a failing input.  At speed `v = 2` with all other components zero but
`srv_a = 1` (so `v_target = 0`) and `dt = 1/64`, the target acceleration before the damping
is `clip(-2, -100, 4)/dt = -128`, below `BRAKE_LIMIT = -100`, where the formula of the claim
gives -100; at `v = -1` and `dt = 1/8` it is `clip(1, -100, 4)/dt = 8`, above
`ACCEL_LIMIT = 4`, where the formula of the claim gives 4. -/
theorem GetControl_accel_target_outside_limits :
    (GetControl.vars stubLibm (sampleState 2 0 1 0) (fin (1 / 64))).a_target_init
      = fin (-128) ∧
    clip ((GetControl.vars stubLibm (sampleState 2 0 1 0) (fin (1 / 64))).v_target - fin 2)
        (BRAKE_LIMIT * fin (1 / 64)) (ACCEL_LIMIT * fin (1 / 64)) / fin (1 / 64)
      = fin (-100) ∧
    (GetControl.vars stubLibm (sampleState (-1) 0 1 0) (fin (1 / 8))).a_target_init
      = fin 8 ∧
    clip ((GetControl.vars stubLibm (sampleState (-1) 0 1 0) (fin (1 / 8))).v_target - fin (-1))
        (BRAKE_LIMIT * fin (1 / 8)) (ACCEL_LIMIT * fin (1 / 8)) / fin (1 / 8)
      = fin 4 := by
  refine ⟨?_, ?_, ?_, ?_⟩ <;>
    norm_num [GetControl.vars, stubLibm, clip, CFloat.exp, CFloat.cos, CFloat.sin,
      CFloat.fmin, CFloat.sqrtf, CFloat.fabs, SPEED_LIMIT, LANE_OFFSET, LANEOFFSET_PER_K,
      kpy, kvy, TRACTION_LIMIT, BRAKE_LIMIT, ACCEL_LIMIT, fin_div_fin, infTimes]

/-- C13. Steering saturation monotonicity: for every state whose unclamped steering
`(k_target - srv_b)/srv_a` has absolute value above 1 (no assumption on `srv_a` is needed),
the steering output is `+1` when the unclamped value is above 1 and `-1` when it is below
-1; the saturation step runs, and the speed ceiling after it is at most the ceiling
`fmin(SPEED_LIMIT, (k1 - k4)/(k2 + k3))` computed before it. -/
theorem GetControl_steering_saturation (L : Libm α) (x_ : Fin 12 → CFloat α)
    (dt : CFloat α)
    (h : fin 1 < fabs (((GetControl.vars L x_ dt).k_target - x_ 10) / x_ 9)) :
    ((fin 1 < ((GetControl.vars L x_ dt).k_target - x_ 10) / x_ 9 ∧
        (GetControl.vars L x_ dt).steering_out = fin 1) ∨
     (((GetControl.vars L x_ dt).k_target - x_ 10) / x_ 9 < fin (-1) ∧
        (GetControl.vars L x_ dt).steering_out = fin (-1))) ∧
    (GetControl.vars L x_ dt).vmax_init =
      fmin SPEED_LIMIT ((CFloat.exp L (x_ 5) - CFloat.exp L (x_ 8)) /
        (CFloat.exp L (x_ 6) + CFloat.exp L (x_ 7))) ∧
    (GetControl.vars L x_ dt).vmax =
      fmin (GetControl.vars L x_ dt).vmax_init
        (x_ 0 * (GetControl.vars L x_ dt).k_target /
          (x_ 9 * (GetControl.vars L x_ dt).steering_out + x_ 10)) ∧
    CFloat.le (GetControl.vars L x_ dt).vmax (GetControl.vars L x_ dt).vmax_init = true := by
  have hne : (GetControl.vars L x_ dt).vmax_init ≠ nan := by
    rw [vars_vmax_init]
    exact fmin_fin_ne_nan 5 _
  have hsat : (GetControl.vars L x_ dt).vmax =
      fmin (GetControl.vars L x_ dt).vmax_init
        (x_ 0 * (GetControl.vars L x_ dt).k_target /
          (x_ 9 * (GetControl.vars L x_ dt).steering_out + x_ 10)) := by
    rw [vars_vmax]
    rcases clip_of_one_lt_fabs h with ⟨_, h2⟩ | ⟨_, h2⟩
    · rw [vars_steering_out, h2]
      simp
    · rw [vars_steering_out, h2]
      simp
  refine ⟨?_, rfl, hsat, ?_⟩
  · rcases clip_of_one_lt_fabs h with ⟨h1, h2⟩ | ⟨h1, h2⟩
    · exact Or.inl ⟨h1, h2⟩
    · exact Or.inr ⟨h1, h2⟩
  · rw [hsat]
    exact fmin_le_left hne _

/-- Witness of C13: speed 1, curvature 2, `srv_a = 1`, `srv_b = 0`: the unclamped steering
is 2. -/
theorem GetControl_steering_saturation_witness :
    (GetControl.vars unitLibm (sampleState 1 2 1 0) (fin 1)).steering_out = fin 1 ∧
    CFloat.le (GetControl.vars unitLibm (sampleState 1 2 1 0) (fin 1)).vmax
      (GetControl.vars unitLibm (sampleState 1 2 1 0) (fin 1)).vmax_init = true := by
  have hk : (GetControl.vars unitLibm (sampleState 1 2 1 0) (fin 1)).k_target = fin 2 :=
    vars_k_target_on_path unitLibm _ _ 2 rfl rfl rfl rfl rfl
  have h : fin 1 < fabs (((GetControl.vars unitLibm (sampleState 1 2 1 0) (fin 1)).k_target
      - sampleState 1 2 1 0 10) / sampleState 1 2 1 0 9) := by
    rw [hk]
    norm_num [CFloat.fabs]
  obtain ⟨hs, _, _, hle⟩ := GetControl_steering_saturation unitLibm (sampleState 1 2 1 0)
    (fin 1) h
  refine ⟨?_, hle⟩
  rcases hs with ⟨_, h2⟩ | ⟨h1, _⟩
  · exact h2
  · rw [hk] at h1
    norm_num at h1

/-- C14 (as amended). Traction bound, in the rounded arithmetic of the program.
(i) For every rounding of the `float` and `double` operations and every state, when the
traction speed `sqrtf(TRACTION_LIMIT/|k_target|)` is not NaN, the target speed `v_target`
is at most the traction speed.  (ii) For every rounding, when `k_target` is finite and not
zero, the quotient `TRACTION_LIMIT/|k_target| = 4/|k_target|` rounds to a finite `X ≥ 0`
with `X ≤ (4/|k_target|)·(1+u)`, and `sqrtf X` rounds to a finite `T ≥ 0` with
`T² ≤ X·(1+u)²`, the traction speed is `T` and a finite target speed `v_target ≥ 0`
satisfies `v_target ≤ T` and `v_target² · |k_target| ≤ TRACTION_LIMIT · (1+u)³`.
(iii) In binary32 arithmetic (`roundF32`, `roundF64`), for every state with a finite
`k_target ≠ 0` and a finite traction speed `T ≥ 0` that is at most `(1 + 2^-24)` times the
square root of the rounded quotient `X`, a finite target speed `v_target ≥ 0` satisfies
`v_target ≤ T` and `v_target² · |k_target| ≤ TRACTION_LIMIT · (1 + 2^-24)³`. -/
theorem GetControl_target_speed_traction :
    (∀ (r32 r64 : α → CFloat α) (L : Libm α) (x_ : Fin 12 → CFloat α),
      (GetControl.roundedVars r32 r64 L x_).traction_speed ≠ nan →
        CFloat.le (GetControl.roundedVars r32 r64 L x_).v_target
          (GetControl.roundedVars r32 r64 L x_).traction_speed = true) ∧
    (∀ (r32 r64 : α → CFloat α) (L : Libm α) (x_ : Fin 12 → CFloat α) (u k X T v_t : α),
      0 ≤ u →
      (GetControl.roundedVars r32 r64 L x_).k_target = fin k → k ≠ 0 →
      r32 (4 / |k|) = fin X → 0 ≤ X → X ≤ 4 / |k| * (1 + u) →
      r32 (L.sqrt X) = fin T → 0 ≤ T → T * T ≤ X * (1 + u) ^ 2 →
      (GetControl.roundedVars r32 r64 L x_).v_target = fin v_t → 0 ≤ v_t →
        (GetControl.roundedVars r32 r64 L x_).traction_speed = fin T ∧
        v_t ≤ T ∧ v_t ^ 2 * |k| ≤ 4 * (1 + u) ^ 3 ∧
        (TRACTION_LIMIT : CFloat α) = fin 4) ∧
    (∀ (L : Libm ℚ) (x_ : Fin 12 → CFloat ℚ) (k X T v_t : ℚ),
      (GetControl.roundedVars roundF32 roundF64 L x_).k_target = fin k → k ≠ 0 →
      roundF32 (4 / |k|) = fin X →
      (GetControl.roundedVars roundF32 roundF64 L x_).traction_speed = fin T →
      0 ≤ T → T * T ≤ X * (1 + 1 / 2 ^ 24) ^ 2 →
      (GetControl.roundedVars roundF32 roundF64 L x_).v_target = fin v_t → 0 ≤ v_t →
        v_t ≤ T ∧ v_t ^ 2 * |k| ≤ 4 * (1 + 1 / 2 ^ 24) ^ 3) := by
  have gen : ∀ {β : Type} [LinearOrderedField β] (r32 r64 : β → CFloat β) (L : Libm β)
      (x_ : Fin 12 → CFloat β) (u k X T v_t : β),
      0 ≤ u →
      (GetControl.roundedVars r32 r64 L x_).k_target = fin k → k ≠ 0 →
      r32 (4 / |k|) = fin X → 0 ≤ X → X ≤ 4 / |k| * (1 + u) →
      r32 (L.sqrt X) = fin T → 0 ≤ T → T * T ≤ X * (1 + u) ^ 2 →
      (GetControl.roundedVars r32 r64 L x_).v_target = fin v_t → 0 ≤ v_t →
        (GetControl.roundedVars r32 r64 L x_).traction_speed = fin T ∧
        v_t ≤ T ∧ v_t ^ 2 * |k| ≤ 4 * (1 + u) ^ 3 ∧
        (TRACTION_LIMIT : CFloat β) = fin 4 := by
    intro β _ r32 r64 L x_ u k X T v_t hu hk hk0 hX hX0 hXe hT hT0 hTe hv hv0
    have kpos : 0 < |k| := abs_pos.mpr hk0
    have htr : (GetControl.roundedVars r32 r64 L x_).traction_speed = fin T := by
      rw [rvars_traction_speed, hk]
      simp only [TRACTION_LIMIT, CFloat.fabs]
      rw [fin_div_fin_of_ne 4 (ne_of_gt kpos), rounded_fin, hX]
      simp only [CFloat.sqrtf, if_neg (not_lt.mpr hX0)]
      rw [rounded_fin, hT]
    have hle : v_t ≤ T := by
      rw [rvars_v_target, htr] at hv
      exact fmin_fin_right_le hv
    refine ⟨htr, hle, ?_, rfl⟩
    have h1 : v_t ^ 2 ≤ T * T := by nlinarith
    have h2 : v_t ^ 2 ≤ 4 / |k| * (1 + u) * (1 + u) ^ 2 := by
      have : X * (1 + u) ^ 2 ≤ 4 / |k| * (1 + u) * (1 + u) ^ 2 :=
        mul_le_mul_of_nonneg_right hXe (sq_nonneg _)
      linarith
    calc v_t ^ 2 * |k| ≤ 4 / |k| * (1 + u) * (1 + u) ^ 2 * |k| :=
          mul_le_mul_of_nonneg_right h2 (le_of_lt kpos)
      _ = 4 * (1 + u) ^ 3 := by
          field_simp
          ring
  refine ⟨?_, fun r32 r64 L x_ => gen r32 r64 L x_, ?_⟩
  · intro r32 r64 L x_ h
    rw [rvars_v_target]
    exact fmin_le_right _ h
  · intro L x_ k X T v_t hk hk0 hX htr hT0 hTe hv hv0
    have kpos : 0 < |k| := abs_pos.mpr hk0
    -- `k_target` is a binary32 number, so the quotient is in the normal range
    obtain ⟨y, hy⟩ := rvars_k_target_rounded roundF32 roundF64 L x_
    have hk2 := hk
    rw [hy] at hk2
    obtain ⟨c, _, hc⟩ := rounded_fin_inv hk2
    have hklt : |k| < 2 ^ 128 := roundF32_abs_lt c k hc
    have hq0 : (0 : ℚ) < 4 / |k| := div_pos (by norm_num) kpos
    have hnorm : (1 : ℚ) / 2 ^ 126 ≤ abs (4 / |k|) := by
      rw [abs_of_pos hq0, div_le_div_iff₀ (by norm_num) kpos]
      have e : (4 : ℚ) * 2 ^ 126 = 2 ^ 128 := by norm_num
      linarith
    have herr := roundF32_rel_error (4 / |k|) X hX hnorm
    rw [abs_of_pos hq0, abs_le] at herr
    have hpos24 : (0 : ℚ) ≤ 4 / |k| / 2 ^ 24 := div_nonneg (le_of_lt hq0) (by norm_num)
    have hlt24 : 4 / |k| / 2 ^ 24 ≤ 4 / |k| := by
      rw [div_le_iff₀ (by norm_num)]
      nlinarith
    have hX0 : 0 ≤ X := by linarith [herr.1]
    have hXe : X ≤ 4 / |k| * (1 + 1 / 2 ^ 24) := by
      have e : 4 / |k| * (1 + 1 / 2 ^ 24) = 4 / |k| + 4 / |k| / 2 ^ 24 := by ring
      rw [e]
      linarith [herr.2]
    have hT : roundF32 (L.sqrt X) = fin T := by
      have h := htr
      rw [rvars_traction_speed, hk] at h
      simp only [TRACTION_LIMIT, CFloat.fabs] at h
      rw [fin_div_fin_of_ne 4 (ne_of_gt kpos), rounded_fin, hX] at h
      simp only [CFloat.sqrtf, if_neg (not_lt.mpr hX0)] at h
      rw [rounded_fin] at h
      exact h
    obtain ⟨_, h1, h2, _⟩ := gen roundF32 roundF64 L x_ (1 / 2 ^ 24) k X T v_t
      (by norm_num) hk hk0 hX hX0 hXe hT hT0 hTe hv hv0
    exact ⟨h1, h2⟩

/-- Witness of C14 (as amended): binary32 arithmetic at `kappa = 0.71428573f`, `ml_1 = 3`,
`srv_a = 1` and speed 0, where the ceiling is `SPEED_LIMIT = 5`, the traction term binds,
`k_target = 0.71428573`, `X = 5.5999999`, `T = v_target = 2.366432`, and `u = 2^-24`. -/
theorem GetControl_target_speed_traction_witness :
    CFloat.le (GetControl.roundedVars roundF32 roundF64 f32Libm curveState).v_target
      (GetControl.roundedVars roundF32 roundF64 f32Libm curveState).traction_speed = true ∧
    ((GetControl.roundedVars roundF32 roundF64 f32Libm curveState).traction_speed
        = fin (9925535 / 4194304) ∧
      (9925535 / 4194304 : ℚ) ≤ 9925535 / 4194304 ∧
      (9925535 / 4194304 : ℚ) ^ 2 * |5991863 / 8388608| ≤ 4 * (1 + 1 / 16777216) ^ 3) ∧
    ((9925535 / 4194304 : ℚ) ≤ 9925535 / 4194304 ∧
      (9925535 / 4194304 : ℚ) ^ 2 * |5991863 / 8388608| ≤ 4 * (1 + 1 / 2 ^ 24) ^ 3) := by
  have habs : |(5991863 / 8388608 : ℚ)| = 5991863 / 8388608 := abs_of_pos (by norm_num)
  have hX : roundF32 (4 / |(5991863 / 8388608 : ℚ)|) = fin (11744051 / 2097152) := by
    rw [habs]
    norm_num [roundF32_33554432_5991863]
  have h1 := (@GetControl_target_speed_traction ℚ _).1 roundF32 roundF64 f32Libm curveState
    (by rw [curveState_traction_speed]; exact fin_ne_nan _)
  obtain ⟨h2, h3, h4, _⟩ := (@GetControl_target_speed_traction ℚ _).2.1 roundF32 roundF64
    f32Libm curveState (1 / 16777216) (5991863 / 8388608) (11744051 / 2097152)
    (9925535 / 4194304) (9925535 / 4194304) (by norm_num) curveState_k_target
    (by norm_num) hX (by norm_num) (by rw [habs]; norm_num)
    (by norm_num [f32Libm, roundF32_9925535_4194304]) (by norm_num) (by norm_num)
    curveState_v_target (by norm_num)
  have h5 := (@GetControl_target_speed_traction ℚ _).2.2 f32Libm curveState
    (5991863 / 8388608) (11744051 / 2097152) (9925535 / 4194304) (9925535 / 4194304)
    curveState_k_target (by norm_num) hX curveState_traction_speed (by norm_num)
    (by norm_num) curveState_v_target (by norm_num)
  exact ⟨h1, ⟨h2, h3, h4⟩, h5⟩

/-- C14 fails as stated.  (i) At speed -10, curvature 4, `srv_a = 1`, `srv_b = 0` the
steering saturates at 1, the saturation step sets the ceiling to `w_target/k_limit = -40`,
and `k_target = 4`, `v_target = fmin(-40, sqrt(4/4)) = -40`, so that
`v_target² · |k_target| = 6400 > 4`, with exact arithmetic and in binary32 arithmetic alike.
(ii) In binary32 arithmetic, at `kappa = 0.71428573f`, `ml_1 = 3`, `srv_a = 1` and speed 0,
`k_target = 0.71428573` and `v_target = 2.366432 ≥ 0`, the binary32 number nearest to the
square root of `4/k_target` rounded, and `v_target² · |k_target| = 4.0000002 > 4`. -/
theorem GetControl_traction_exceeded :
    (GetControl.vars unitLibm (sampleState (-10) 4 1 0) (fin 1)).k_target = fin 4 ∧
    (GetControl.vars unitLibm (sampleState (-10) 4 1 0) (fin 1)).v_target = fin (-40) ∧
    ¬ ((-40 : ℚ) ^ 2 * |4| ≤ 4) ∧
    (GetControl.roundedVars roundF32 roundF64 f32Libm reverseState).k_target = fin 4 ∧
    (GetControl.roundedVars roundF32 roundF64 f32Libm reverseState).v_target = fin (-40) ∧
    (GetControl.roundedVars roundF32 roundF64 f32Libm curveState).k_target
      = fin (5991863 / 8388608) ∧
    (GetControl.roundedVars roundF32 roundF64 f32Libm curveState).v_target
      = fin (9925535 / 4194304) ∧
    (0 : ℚ) ≤ 9925535 / 4194304 ∧
    ¬ ((9925535 / 4194304 : ℚ) ^ 2 * |5991863 / 8388608| ≤ 4) := by
  have habs : |(5991863 / 8388608 : ℚ)| = 5991863 / 8388608 := abs_of_pos (by norm_num)
  refine ⟨vars_k_target_on_path unitLibm _ _ 4 rfl rfl rfl rfl rfl, ?_, by norm_num,
    reverseState_k_target, reverseState_v_target, curveState_k_target, curveState_v_target,
    by norm_num, by rw [habs]; norm_num⟩
  norm_num [GetControl.vars, unitLibm, clip, CFloat.exp, CFloat.cos, CFloat.sin,
    CFloat.fmin, CFloat.sqrtf, CFloat.fabs, SPEED_LIMIT, LANE_OFFSET, LANEOFFSET_PER_K,
    kpy, kvy, TRACTION_LIMIT, fin_div_fin, infTimes]

/-- C15 (as amended). First-tick bookkeeping: on a tick that is not aborted and finds
the first-tick flag set, for every encoder reading, every previous snapshot content and
every `dt`, the tick clears the flag and feeds the zero speed observation:
`UpdateEncoders` is invoked exactly once, as the last call of the tick, with speed 0 and
the given servo position. -/
theorem UpdateState_first_tick {P R Y : Type} (E : Collab α P R Y) (M_PI : α)
    (yuv : Y) (yuvlen : Nat) (throttle_in steering_in : CFloat α)
    (accel gyro : Fin 3 → CFloat α) (servo_pos : Nat) (wheel_encoders : Fin 4 → Nat)
    (dt : CFloat α) (d : DriveController α P R Y)
    (hrun : (isinf (d.ekf.x_ 0) || isnan (d.ekf.x_ 0)) = false)
    (hfirst : d.firstframe_ = true) :
    (UpdateState E M_PI yuv yuvlen throttle_in steering_in accel gyro servo_pos
        wheel_encoders dt d).firstframe_ = false ∧
    ∃ pre : List (Call α R Y),
      (∀ c ∈ pre, ∀ speed pos, c ≠ Call.UpdateEncoders speed pos) ∧
      (UpdateState E M_PI yuv yuvlen throttle_in steering_in accel gyro servo_pos
          wheel_encoders dt d).calls =
        d.calls ++ pre ++ [Call.UpdateEncoders (fin 0) servo_pos] := by
  rw [UpdateState_run _ _ _ _ _ _ _ _ _ _ _ _ hrun, hfirst]
  refine ⟨rfl, [Call.Predict dt throttle_in steering_in] ++ cameraCalls E yuv yuvlen
      ++ [Call.UpdateIMU (gyro 2)], ?_, by simp [encoderSpeed_self]⟩
  intro c hc speed pos
  exact not_updateEncoders_of_mem E yuv yuvlen dt throttle_in steering_in (gyro 2) hc
    speed pos

/-- Witness of C15 (as amended): a first tick of the stub controller with the previous
snapshot `[9, 9, 9, 9]` and the reading `[1, 2, 3, 4]`. -/
theorem UpdateState_first_tick_witness :
    (UpdateState stubCollab M_PI_double () 460800 (fin 0) (fin 0) zero3 zero3 5
        (enc4 1 2 3 4) (fin 1) (stubController restState true (enc4 9 9 9 9))).firstframe_
      = false ∧
    ∃ pre : List (Call ℚ Unit Unit),
      (∀ c ∈ pre, ∀ speed pos, c ≠ Call.UpdateEncoders speed pos) ∧
      (UpdateState stubCollab M_PI_double () 460800 (fin 0) (fin 0) zero3 zero3 5
          (enc4 1 2 3 4) (fin 1) (stubController restState true (enc4 9 9 9 9))).calls =
        (stubController restState true (enc4 9 9 9 9)).calls ++ pre
          ++ [Call.UpdateEncoders (fin 0) 5] :=
  UpdateState_first_tick stubCollab M_PI_double () 460800 (fin 0) (fin 0) zero3 zero3 5
    (enc4 1 2 3 4) (fin 1) (stubController restState true (enc4 9 9 9 9)) rfl rfl

/-- C15 fails as stated: on a first tick of the stub controller (flag set, state finite)
`UpdateEncoders` is invoked, with speed 0. -/
theorem UpdateState_first_tick_feeds_zero_speed :
    (stubController restState true (enc4 9 9 9 9)).firstframe_ = true ∧
    (UpdateState stubCollab M_PI_double () 0 (fin 0) (fin 0) zero3 zero3 0
        (enc4 1 2 3 4) (fin 1) (stubController restState true (enc4 9 9 9 9))).calls
      = [Call.Predict (fin 1) (fin 0) (fin 0), Call.UpdateIMU (fin 0),
         Call.UpdateEncoders (fin 0) 0] ∧
    Call.UpdateEncoders (fin 0) 0 ∈
      (UpdateState stubCollab M_PI_double () 0 (fin 0) (fin 0) zero3 zero3 0
        (enc4 1 2 3 4) (fin 1) (stubController restState true (enc4 9 9 9 9))).calls := by
  have hrun : (isinf ((stubController restState true (enc4 9 9 9 9)).ekf.x_ 0) ||
      isnan ((stubController restState true (enc4 9 9 9 9)).ekf.x_ 0)) = false := rfl
  have hc : (UpdateState stubCollab M_PI_double () 0 (fin 0) (fin 0) zero3 zero3 0
        (enc4 1 2 3 4) (fin 1) (stubController restState true (enc4 9 9 9 9))).calls
      = [Call.Predict (fin 1) (fin 0) (fin 0), Call.UpdateIMU (fin 0),
         Call.UpdateEncoders (fin 0) 0] := by
    rw [UpdateState_run _ _ _ _ _ _ _ _ _ _ _ _ hrun]
    simp [stubController, encoderSpeed_self, cameraCalls, zero3]
  refine ⟨rfl, hc, ?_⟩
  rw [hc]
  simp

/-- C16. After every tick that is not aborted, all four entries of the encoder snapshot
equal the four raw counts passed to that tick, whatever the previous snapshot, the
first-tick flag and the readings are. -/
theorem UpdateState_snapshot {P R Y : Type} (E : Collab α P R Y) (M_PI : α)
    (yuv : Y) (yuvlen : Nat) (throttle_in steering_in : CFloat α)
    (accel gyro : Fin 3 → CFloat α) (servo_pos : Nat) (wheel_encoders : Fin 4 → Nat)
    (dt : CFloat α) (d : DriveController α P R Y)
    (hrun : (isinf (d.ekf.x_ 0) || isnan (d.ekf.x_ 0)) = false) :
    ∀ i : Fin 4,
      (UpdateState E M_PI yuv yuvlen throttle_in steering_in accel gyro servo_pos
        wheel_encoders dt d).last_encoders_ i = wheel_encoders i := by
  intro i
  rw [UpdateState_run _ _ _ _ _ _ _ _ _ _ _ _ hrun]

/-- Witness of C16: a tick of the stub controller that is not the first, with the
previous snapshot `[9, 9, 9, 9]` and the reading `[1, 2, 9, 4]`. -/
theorem UpdateState_snapshot_witness :
    (UpdateState stubCollab M_PI_double () 460800 (fin 0) (fin 0) zero3 zero3 5
        (enc4 1 2 9 4) (fin 1) (stubController restState false (enc4 9 9 9 9))).last_encoders_ 0
      = 1 ∧
    (UpdateState stubCollab M_PI_double () 460800 (fin 0) (fin 0) zero3 zero3 5
        (enc4 1 2 9 4) (fin 1) (stubController restState false (enc4 9 9 9 9))).last_encoders_ 1
      = 2 ∧
    (UpdateState stubCollab M_PI_double () 460800 (fin 0) (fin 0) zero3 zero3 5
        (enc4 1 2 9 4) (fin 1) (stubController restState false (enc4 9 9 9 9))).last_encoders_ 2
      = 9 ∧
    (UpdateState stubCollab M_PI_double () 460800 (fin 0) (fin 0) zero3 zero3 5
        (enc4 1 2 9 4) (fin 1) (stubController restState false (enc4 9 9 9 9))).last_encoders_ 3
      = 4 :=
  ⟨UpdateState_snapshot stubCollab M_PI_double () 460800 (fin 0) (fin 0) zero3 zero3 5
      (enc4 1 2 9 4) (fin 1) (stubController restState false (enc4 9 9 9 9)) rfl 0,
   UpdateState_snapshot stubCollab M_PI_double () 460800 (fin 0) (fin 0) zero3 zero3 5
      (enc4 1 2 9 4) (fin 1) (stubController restState false (enc4 9 9 9 9)) rfl 1,
   UpdateState_snapshot stubCollab M_PI_double () 460800 (fin 0) (fin 0) zero3 zero3 5
      (enc4 1 2 9 4) (fin 1) (stubController restState false (enc4 9 9 9 9)) rfl 2,
   UpdateState_snapshot stubCollab M_PI_double () 460800 (fin 0) (fin 0) zero3 zero3 5
      (enc4 1 2 9 4) (fin 1) (stubController restState false (enc4 9 9 9 9)) rfl 3⟩

/-- C17. Front-axle exclusion: two ticks that are not aborted and agree on everything
except the front encoder values (entries 0 and 1 of the reading and of the snapshot) and
the calls logged before make the same collaborator calls and leave the same estimator; in
particular the speed passed to `UpdateEncoders`, the last call of either tick, is the
same. -/
theorem UpdateState_front_encoders_unused {P R Y : Type} (E : Collab α P R Y) (M_PI : α)
    (yuv : Y) (yuvlen : Nat) (throttle_in steering_in : CFloat α)
    (accel gyro : Fin 3 → CFloat α) (servo_pos : Nat)
    (wheel_encoders wheel_encoders' : Fin 4 → Nat)
    (dt : CFloat α) (d d' : DriveController α P R Y)
    (hrun : (isinf (d.ekf.x_ 0) || isnan (d.ekf.x_ 0)) = false)
    (hekf : d.ekf = d'.ekf) (hfirst : d.firstframe_ = d'.firstframe_)
    (hw2 : wheel_encoders 2 = wheel_encoders' 2) (hw3 : wheel_encoders 3 = wheel_encoders' 3)
    (hl2 : d.last_encoders_ 2 = d'.last_encoders_ 2)
    (hl3 : d.last_encoders_ 3 = d'.last_encoders_ 3) :
    (UpdateState E M_PI yuv yuvlen throttle_in steering_in accel gyro servo_pos
        wheel_encoders dt d).ekf =
      (UpdateState E M_PI yuv yuvlen throttle_in steering_in accel gyro servo_pos
        wheel_encoders' dt d').ekf ∧
    ∃ (pre : List (Call α R Y)) (speed : CFloat α),
      (∀ c ∈ pre, ∀ s pos, c ≠ Call.UpdateEncoders s pos) ∧
      (UpdateState E M_PI yuv yuvlen throttle_in steering_in accel gyro servo_pos
          wheel_encoders dt d).calls =
        d.calls ++ pre ++ [Call.UpdateEncoders speed servo_pos] ∧
      (UpdateState E M_PI yuv yuvlen throttle_in steering_in accel gyro servo_pos
          wheel_encoders' dt d').calls =
        d'.calls ++ pre ++ [Call.UpdateEncoders speed servo_pos] := by
  have hrun' : (isinf (d'.ekf.x_ 0) || isnan (d'.ekf.x_ 0)) = false := by
    rw [← hekf]
    exact hrun
  have hspeed : encoderSpeed wheel_encoders
        (if d.firstframe_ then wheel_encoders else d.last_encoders_) dt =
      encoderSpeed wheel_encoders'
        (if d'.firstframe_ then wheel_encoders' else d'.last_encoders_) dt := by
    rw [← hfirst]
    cases d.firstframe_
    · exact encoderSpeed_congr _ _ _ _ dt hw2 hw3 hl2 hl3
    · exact encoderSpeed_congr _ _ _ _ dt hw2 hw3 hw2 hw3
  rw [UpdateState_run _ _ _ _ _ _ _ _ _ _ _ _ hrun,
    UpdateState_run _ _ _ _ _ _ _ _ _ _ _ _ hrun', ← hspeed, ← hekf]
  refine ⟨rfl, [Call.Predict dt throttle_in steering_in] ++ cameraCalls E yuv yuvlen
      ++ [Call.UpdateIMU (gyro 2)],
    encoderSpeed wheel_encoders
      (if d.firstframe_ then wheel_encoders else d.last_encoders_) dt, ?_, by simp, ?_⟩
  · intro c hc speed pos
    exact not_updateEncoders_of_mem E yuv yuvlen dt throttle_in steering_in (gyro 2) hc
      speed pos
  · simp

/-- Witness of C17: two ticks of the stub controller with rear snapshot `[10, 20]` and
rear reading `[13, 20]`, front snapshots `[1, 2]` and `[7, 8]`, front readings `[3, 4]`
and `[100, 200]`. -/
theorem UpdateState_front_encoders_unused_witness :
    (UpdateState stubCollab M_PI_double () 460800 (fin 0) (fin 0) zero3 zero3 5
        (enc4 3 4 13 20) (fin 1) (stubController restState false (enc4 1 2 10 20))).ekf =
      (UpdateState stubCollab M_PI_double () 460800 (fin 0) (fin 0) zero3 zero3 5
        (enc4 100 200 13 20) (fin 1) (stubController restState false (enc4 7 8 10 20))).ekf ∧
    ∃ (pre : List (Call ℚ Unit Unit)) (speed : CFloat ℚ),
      (∀ c ∈ pre, ∀ s pos, c ≠ Call.UpdateEncoders s pos) ∧
      (UpdateState stubCollab M_PI_double () 460800 (fin 0) (fin 0) zero3 zero3 5
          (enc4 3 4 13 20) (fin 1) (stubController restState false (enc4 1 2 10 20))).calls =
        (stubController restState false (enc4 1 2 10 20)).calls ++ pre
          ++ [Call.UpdateEncoders speed 5] ∧
      (UpdateState stubCollab M_PI_double () 460800 (fin 0) (fin 0) zero3 zero3 5
          (enc4 100 200 13 20) (fin 1)
          (stubController restState false (enc4 7 8 10 20))).calls =
        (stubController restState false (enc4 7 8 10 20)).calls ++ pre
          ++ [Call.UpdateEncoders speed 5] :=
  UpdateState_front_encoders_unused stubCollab M_PI_double () 460800 (fin 0) (fin 0) zero3
    zero3 5 (enc4 3 4 13 20) (enc4 100 200 13 20) (fin 1)
    (stubController restState false (enc4 1 2 10 20))
    (stubController restState false (enc4 7 8 10 20)) rfl rfl rfl rfl rfl rfl rfl

/-- C18. Path-tracking equilibrium: for every finite curvature `kappa`, when the lateral
offset `y_e` and the heading error `psi_e` are zero, the target curvature `k_target` equals
`kappa`, for every `Libm` with `cos 0 = 1` and `sin 0 = 0` (the real cosine and sine among
them); the configured constants are `LANE_OFFSET = 0`, `LANEOFFSET_PER_K = 0`, `kpy = 1`,
`kvy = 2`. -/
theorem GetControl_on_path_target_curvature (L : Libm α) (x_ : Fin 12 → CFloat α)
    (dt : CFloat α) (kappa : α) (hcos : L.cos 0 = 1) (hsin : L.sin 0 = 0)
    (hy : x_ 2 = fin 0) (hpsi : x_ 3 = fin 0) (hk : x_ 4 = fin kappa) :
    (GetControl.vars L x_ dt).k_target = fin kappa ∧
    (LANE_OFFSET : CFloat α) = fin 0 ∧ (LANEOFFSET_PER_K : CFloat α) = fin 0 ∧
    (kpy : CFloat α) = fin 1 ∧ (kvy : CFloat α) = fin 2 := by
  refine ⟨?_, rfl, rfl, rfl, rfl⟩
  have hlane : clip (LANE_OFFSET + x_ 4 * LANEOFFSET_PER_K) (fin (-1)) (fin 1)
      = (fin 0 : CFloat α) := by
    rw [hk]
    norm_num [clip, LANE_OFFSET, LANEOFFSET_PER_K]
  have hc : CFloat.cos L (x_ 3 - fin 0) = fin 1 := by
    rw [hpsi]
    simp [CFloat.cos, hcos]
  have hs : CFloat.sin L (x_ 3 - fin 0) = fin 0 := by
    rw [hpsi]
    simp [CFloat.sin, hsin]
  have hdx : CFloat.cos L (x_ 3 - fin 0) / (fin 1 - x_ 4 * x_ 2) = (fin 1 : CFloat α) := by
    rw [hc, hk, hy]
    norm_num
  show CFloat.cos L (x_ 3 - fin 0) / (fin 1 - x_ 4 * x_ 2) *
    (-(x_ 2 - clip (LANE_OFFSET + x_ 4 * LANEOFFSET_PER_K) (fin (-1)) (fin 1)) *
          (CFloat.cos L (x_ 3 - fin 0) / (fin 1 - x_ 4 * x_ 2)) * kpy *
          CFloat.cos L (x_ 3 - fin 0)
        - CFloat.sin L (x_ 3 - fin 0) *
          (-x_ 4 * CFloat.sin L (x_ 3 - fin 0) - kvy * CFloat.cos L (x_ 3 - fin 0))
        + x_ 4) = fin kappa
  rw [hdx, hlane, hc, hs, hy, hk]
  norm_num [kpy, kvy]

/-- Witness of C18: curvature 3 at speed 1, with `srv_a = 1`, `srv_b = 0`. -/
theorem GetControl_on_path_target_curvature_witness :
    (GetControl.vars unitLibm (sampleState 1 3 1 0) (fin 1)).k_target = fin 3 :=
  (GetControl_on_path_target_curvature unitLibm (sampleState 1 3 1 0) (fin 1) 3
    rfl rfl rfl rfl rfl).1

end Claims

end Autorustler
